import Mathlib

/-!
Verification development for the BrainPin backend handler
(src/infra/backend/lambda/app.py).

The Python module is shallowly embedded: untyped JSON / DynamoDB values
become the inductive `JVal`; Python dicts become association lists
(`Obj`); raising `HttpError` becomes `Except HttpError`; the two DynamoDB
tables become lists of items inside a `Store` record, with the
conditional-write primitives modelled explicitly.  Paginated scans are
modelled by their aggregate result (the Python loops exhaust all pages
before returning).  JSON text encoding, base64 decoding, CORS headers and
logging are outside the model; request bodies enter the model already
parsed into `JVal`.  Every operation performs at most one store write, as
the final step, so an operation returns `Except HttpError (Resp × Store)`
and an error leaves the store untouched, exactly as in the source.
-/

/-- Untyped JSON / DynamoDB attribute value, the image of Python `Any`. -/
inductive JVal where
  | null
  | bool (b : Bool)
  | num (n : Int)
  | str (s : String)
  | arr (elems : List JVal)
  | obj (fields : List (String × JVal))

/-- A Python dict with string keys (JSON object / DynamoDB item). -/
abbrev Obj := List (String × JVal)

/-- Python `d.get(k)`: `None` when the key is absent (JSON `null` and an
absent key both map to `JVal.null`, matching Python `None`). -/
def pyGet (o : Obj) (k : String) : JVal :=
  match o.lookup k with
  | some v => v
  | none => JVal.null

/-- Python `k in d`. -/
def hasKey (o : Obj) (k : String) : Bool :=
  (o.lookup k).isSome

/-- Python `str.strip()`: remove leading and trailing whitespace. -/
def pyStrip (s : String) : String :=
  ⟨((s.data.dropWhile Char.isWhitespace).reverse.dropWhile Char.isWhitespace).reverse⟩

/-- Python `str.lower()` (ASCII case folding). -/
def strLower (s : String) : String :=
  ⟨s.data.map Char.toLower⟩

/-- Python `str.upper()` (ASCII case folding). -/
def strUpper (s : String) : String :=
  ⟨s.data.map Char.toUpper⟩

/-- Python `str.startswith(p)`. -/
def strStartsWith (s p : String) : Bool :=
  p.data.isPrefixOf s.data

/-- Python `needle in haystack` on strings (substring test). -/
def strContainsSub (haystack needle : String) : Bool :=
  decide (List.IsInfix needle.data haystack.data)

/-- The HTTP error raised by the handler (`HttpError` in the source). -/
structure HttpError where
  status_code : Nat
  message : String
deriving DecidableEq

/-- Wrap a field label in single quotes, as the source f-strings do. -/
def q (field : String) : String := "\x27" ++ field ++ "\x27"

/-- `_validate_string`: require a string, strip it, check emptiness and
maximum length. -/
def validate_string (value : JVal) (field : String) (max_length : Nat)
    (allow_empty : Bool := false) : Except HttpError String :=
  match value with
  | JVal.str s =>
    let trimmed := pyStrip s
    if trimmed = "" ∧ allow_empty = false then
      .error ⟨400, q field ++ " cannot be empty"⟩
    else if max_length < trimmed.length then
      .error ⟨400, q field ++ " must not exceed " ++ toString max_length ++ " characters"⟩
    else
      .ok trimmed
  | _ => .error ⟨400, q field ++ " must be a string"⟩

/-- `_normalize_phone_number`: drop whitespace, parentheses, dots and
hyphens, then validate the `+` placement and that the rest are digits. -/
def normalize_phone_number (raw : String) (field : String) : Except HttpError String :=
  let digits : String :=
    ⟨raw.data.filter (fun c => !(c.isWhitespace || c == '(' || c == ')' || c == '.' || c == '-'))⟩
  if digits = "" then
    .error ⟨400, q field ++ " cannot be empty"⟩
  else
    let plus_count := digits.data.count '+'
    if 1 < plus_count then
      .error ⟨400, q field ++ " contains too many " ++ q "+" ++ " characters"⟩
    else if plus_count = 1 ∧ strStartsWith digits "+" = false then
      .error ⟨400, q field ++ " must start with " ++ q "+" ++ " if it contains one"⟩
    else
      let number : String := if strStartsWith digits "+" then ⟨digits.data.drop 1⟩ else digits
      if (number ≠ "" ∧ number.data.all Char.isDigit) = false then
        .error ⟨400, q field ++ " may only contain digits aside from a leading " ++ q "+"⟩
      else
        .ok (if strStartsWith digits "+" then "+" ++ number else number)

/-- `_validate_url`: string rules with max length 2048, then either the
`tel:` branch (phone normalization) or the literal `^https?://` regex
match on the trimmed value. -/
def validate_url (url : JVal) (field : String := "url") : Except HttpError String := do
  let trimmed ← validate_string url field 2048
  let lower_trimmed := strLower trimmed
  if strStartsWith lower_trimmed "tel:" then
    let phone : String := ⟨trimmed.data.drop 4⟩
    let normalized ← normalize_phone_number phone field
    return "tel:" ++ normalized
  else if strStartsWith trimmed "http://" ∨ strStartsWith trimmed "https://" then
    return trimmed
  else
    .error ⟨400, q field ++ " must start with http:// or https://"⟩

/-- `_validate_description`: `None` and blank strings mean no value. -/
def validate_description (value : JVal) : Except HttpError (Option String) :=
  match value with
  | JVal.null => .ok none
  | JVal.str s =>
    let trimmed := pyStrip s
    if trimmed = "" then .ok none
    else if 512 < trimmed.length then
      .error ⟨400, q "description" ++ " must not exceed 512 characters"⟩
    else .ok (some trimmed)
  | _ => .error ⟨400, q "description" ++ " must be a string"⟩

/-- Constructor for one sanitized sublink entry: the dict literal built in
`_validate_sublinks`, `_extract_sublinks` and `_create_sublink` (keys in
the order id, name, url, then description when present). -/
def mkSublinkObj (id name url : String) (description : Option String) : Obj :=
  [("id", JVal.str id), ("name", JVal.str name), ("url", JVal.str url)]
    ++ (match description with
        | some d => [("description", JVal.str d)]
        | none => [])

/-- Loop body of `_validate_sublinks`: `index` is the position label,
`gen_count` counts ids generated so far (id generation is modelled by the
supply `gen_sub`), `seen_ids` are the ids already taken. -/
def validate_sublinks_aux (gen_sub : Nat → String) (allow_autogenerated_ids : Bool) :
    List JVal → Nat → Nat → List String → Except HttpError (List Obj)
  | [], _, _, _ => .ok []
  | candidate :: rest, index, gen_count, seen_ids =>
    match candidate with
    | JVal.obj c => do
      let (sublink_id, gen_count') ←
        match pyGet c "id" with
        | JVal.null =>
          if allow_autogenerated_ids = false then
            Except.error ⟨400, "sublinks[" ++ toString index ++ "].id is required"⟩
          else
            Except.ok (gen_sub gen_count, gen_count + 1)
        | raw_id => do
          let v ← validate_string raw_id ("sublinks[" ++ toString index ++ "].id") 64
          Except.ok (v, gen_count)
      if sublink_id ∈ seen_ids then
        Except.error ⟨400, "Sublink identifiers must be unique"⟩
      else do
        let name ← validate_string (pyGet c "name") ("sublinks[" ++ toString index ++ "].name") 128
        let url ← validate_url (pyGet c "url") ("sublinks[" ++ toString index ++ "].url")
        let description ← validate_description (pyGet c "description")
        let sanitized_rest ← validate_sublinks_aux gen_sub allow_autogenerated_ids rest
          (index + 1) gen_count' (sublink_id :: seen_ids)
        Except.ok (mkSublinkObj sublink_id name url description :: sanitized_rest)
    | _ => .error ⟨400, "sublinks[" ++ toString index ++ "] must be an object"⟩

/-- `_validate_sublinks`. -/
def validate_sublinks (value : JVal) (gen_sub : Nat → String)
    (allow_autogenerated_ids : Bool := true) : Except HttpError (List Obj) :=
  match value with
  | JVal.null => .ok []
  | JVal.arr elems => validate_sublinks_aux gen_sub allow_autogenerated_ids elems 0 0 []
  | _ => .error ⟨400, q "sublinks" ++ " must be a list"⟩

/-- Loop body of `_sanitize_category_ids`: validate each entry and drop
duplicates while preserving first-seen order. -/
def sanitize_category_ids_aux (field : String) (is_list : Bool) :
    List JVal → Nat → List String → Except HttpError (List String)
  | [], _, _ => .ok []
  | candidate :: rest, index, seen => do
    let label := if is_list then field ++ "[" ++ toString index ++ "]" else field
    let category_id ← validate_string candidate label 64
    if category_id ∈ seen then
      sanitize_category_ids_aux field is_list rest (index + 1) seen
    else do
      let sanitized_rest ← sanitize_category_ids_aux field is_list rest (index + 1) (category_id :: seen)
      Except.ok (category_id :: sanitized_rest)

/-- Tail of `_sanitize_category_ids` shared by the list and string forms:
run the loop, then reject an empty result. -/
def sanitize_from (field : String) (raw_items : List JVal) (is_list : Bool) :
    Except HttpError (List String) := do
  let sanitized ← sanitize_category_ids_aux field is_list raw_items 0 []
  if sanitized = [] then
    Except.error ⟨400, q field ++ " must contain at least one category identifier"⟩
  else
    Except.ok sanitized

/-- `_sanitize_category_ids`: accept a list of strings or a single string
(legacy), validate, deduplicate, and require a non-empty result. -/
def sanitize_category_ids (value : JVal) (field : String) : Except HttpError (List String) :=
  match value with
  | JVal.null => .error ⟨400, q field ++ " must contain at least one category identifier"⟩
  | JVal.arr raw_items => sanitize_from field raw_items true
  | JVal.str s => sanitize_from field [JVal.str s] false
  | _ => .error ⟨400, q field ++ " must be a list of category identifiers"⟩

/-- One candidate of `_extract_sublinks`: keep only well-formed embedded
entries (string id, name and url; description kept when it is a string). -/
def extract_sublink_entry (candidate : JVal) : Option Obj :=
  match candidate with
  | JVal.obj c =>
    match pyGet c "id", pyGet c "name", pyGet c "url" with
    | JVal.str sublink_id, JVal.str name, JVal.str url =>
      some (mkSublinkObj sublink_id name url
        (match pyGet c "description" with
         | JVal.str d => some d
         | _ => none))
    | _, _, _ => none
  | _ => none

/-- `_extract_sublinks`: defensive read of the embedded sublink list. -/
def extract_sublinks (item : Obj) : List Obj :=
  match pyGet item "sublinks" with
  | JVal.arr raw => raw.filterMap extract_sublink_entry
  | _ => []

/-- First half of `_serialize`: the merged `categoryIds` sequence — the
modern list field trimmed, filtered and deduplicated in first-seen order,
then the legacy singular field prepended when present, non-blank and not
already contained. -/
def serialize_category_ids (item : Obj) : List String :=
  let category_ids :=
    match pyGet item "category_ids" with
    | JVal.arr raw =>
      raw.foldl (fun acc candidate =>
        match candidate with
        | JVal.str s =>
          let trimmed := pyStrip s
          if trimmed ≠ "" ∧ trimmed ∉ acc then acc ++ [trimmed] else acc
        | _ => acc) []
    | _ => []
  match pyGet item "category_id" with
  | JVal.str s =>
    let trimmed := pyStrip s
    if trimmed ≠ "" ∧ trimmed ∉ category_ids then trimmed :: category_ids else category_ids
  | _ => category_ids

/-- `_serialize`: wire shape of a stored link record.  (The source indexes
`link_id`, `name` and `url` directly and would raise on a record missing
them; serialization is only ever applied to stored records, which always
carry them, so the total `pyGet` stands in for the direct indexing.) -/
def serialize (item : Obj) : Obj :=
  let category_ids := serialize_category_ids item
  [("id", pyGet item "link_id"), ("name", pyGet item "name"), ("url", pyGet item "url"),
   ("categoryIds", JVal.arr (category_ids.map JVal.str))]
  ++ (match category_ids with
      | first :: _ => [("categoryId", JVal.str first)]
      | [] => [])
  ++ (match item.lookup "description" with
      | some v => [("description", v)]
      | none => [])
  ++ [("sublinks", JVal.arr ((extract_sublinks item).map JVal.obj))]

/-- `_serialize_category`. -/
def serialize_category (item : Obj) : Obj :=
  [("id", pyGet item "category_id"), ("name", pyGet item "name")]
  ++ (match item.lookup "description" with
      | some v => [("description", v)]
      | none => [])

/-- The two DynamoDB tables. -/
structure Store where
  links : List Obj
  categories : List Obj

/-- A response, reduced to status code and structured body (headers and
JSON text encoding are outside the model). -/
structure Resp where
  statusCode : Nat
  body : Option JVal

/-- The `response` envelope helper, minus headers. -/
def response (status_code : Nat) (body : Option JVal) : Resp :=
  ⟨status_code, body⟩

/-- Does this item carry the string `id` under the key attribute? -/
def keyIs (o : Obj) (key_attr id : String) : Bool :=
  match o.lookup key_attr with
  | some (JVal.str s) => s == id
  | _ => false

/-- DynamoDB `get_item` on a table keyed by `key_attr`. -/
def getItemByKey (items : List Obj) (key_attr id : String) : Option Obj :=
  items.find? (fun o => keyIs o key_attr id)

/-- One `SET` clause of an update expression: replace or add an attribute. -/
def setAttr : Obj → String → JVal → Obj
  | [], k, v => [(k, v)]
  | (k', v') :: rest, k, v =>
    if k' = k then (k, v) :: rest else (k', v') :: setAttr rest k v

/-- One `REMOVE` clause of an update expression. -/
def removeAttr (o : Obj) (k : String) : Obj :=
  o.filter (fun p => decide (p.1 ≠ k))

/-- Semantics of an update expression: apply all `SET` clauses, then all
`REMOVE` clauses. -/
def applyUpdate (o : Obj) (sets : List (String × JVal)) (removes : List String) : Obj :=
  removes.foldl removeAttr (sets.foldl (fun acc p => setAttr acc p.1 p.2) o)

/-- `put_item` with `ConditionExpression="attribute_not_exists(key)"`:
`none` models `ConditionalCheckFailedException`. -/
def putIfAbsent (items : List Obj) (key_attr id : String) (item : Obj) : Option (List Obj) :=
  if (getItemByKey items key_attr id).isSome then none
  else some (items ++ [item])

/-- `update_item` with `ConditionExpression="attribute_exists(key)"` and
`ReturnValues="ALL_NEW"`: yields the updated item and the new table. -/
def updateIfExists (items : List Obj) (key_attr id : String)
    (sets : List (String × JVal)) (removes : List String) : Option (Obj × List Obj) :=
  match getItemByKey items key_attr id with
  | none => none
  | some it =>
    let updated := applyUpdate it sets removes
    some (updated, items.map (fun o => if keyIs o key_attr id then updated else o))

/-- `delete_item` with `ConditionExpression="attribute_exists(key)"`. -/
def deleteIfExists (items : List Obj) (key_attr id : String) : Option (List Obj) :=
  if (getItemByKey items key_attr id).isSome then
    some (items.filter (fun o => !(keyIs o key_attr id)))
  else none

/-- DynamoDB `Attr(a).contains(v)` for a string `v`: membership for list
attributes, substring for string attributes, false otherwise. -/
def dynContains (v : JVal) (needle : String) : Bool :=
  match v with
  | JVal.arr elems =>
    elems.any (fun e => match e with | JVal.str s => s == needle | _ => false)
  | JVal.str s => strContainsSub s needle
  | _ => false

/-- `_category_has_links`: the paginated filtered scan, collapsed to its
aggregate result — does any stored link reference the category through
the `category_ids` list or the legacy `category_id` attribute? -/
def category_has_links (links : List Obj) (category_id : String) : Bool :=
  links.any (fun it =>
    dynContains (pyGet it "category_ids") category_id
      || (match it.lookup "category_id" with
          | some (JVal.str s) => s == category_id
          | _ => false))

/-- `_assert_category_exists`: existence probe against the categories
table. -/
def assert_category_exists (categories : List Obj) (category_id : String) :
    Except HttpError Unit :=
  if (getItemByKey categories "category_id" category_id).isSome then .ok ()
  else .error ⟨400, "categoryId must reference an existing category"⟩

/-- The `for category_id in category_ids: _assert_category_exists(...)`
loop: fails on the first missing reference. -/
def assert_categories_exist (categories : List Obj) :
    List String → Except HttpError Unit
  | [] => .ok ()
  | category_id :: rest => do
    let _ ← assert_category_exists categories category_id
    assert_categories_exist categories rest

/-- `_extract_category_ids_from_body`. -/
def extract_category_ids_from_body (event_body : Obj) (categories : List Obj) :
    Except HttpError (List String) := do
  let category_ids ←
    if hasKey event_body "categoryIds" then
      sanitize_category_ids (pyGet event_body "categoryIds") "categoryIds"
    else if hasKey event_body "categoryId" then
      sanitize_category_ids (pyGet event_body "categoryId") "categoryId"
    else
      Except.error ⟨400, "At least one category must be provided"⟩
  let _ ← assert_categories_exist categories category_ids
  Except.ok category_ids

/-- `_create_category` (`category_id` is the generated id, supplied as a
parameter in place of `_generate_category_id`). -/
def create_category (event_body : Obj) (category_id : String) (st : Store) :
    Except HttpError (Resp × Store) := do
  let name ← validate_string (pyGet event_body "name") "name" 128
  let description ← validate_description (pyGet event_body "description")
  let item : Obj :=
    [("category_id", JVal.str category_id), ("name", JVal.str name)]
      ++ (match description with
          | some d => [("description", JVal.str d)]
          | none => [])
  match putIfAbsent st.categories "category_id" category_id item with
  | none => .error ⟨409, "Category already exists"⟩
  | some categories' =>
    .ok (response 201 (some (JVal.obj [("category", JVal.obj (serialize_category item))])),
         { st with categories := categories' })

/-- `_get_category`. -/
def get_category (category_id : String) (st : Store) : Except HttpError (Resp × Store) :=
  match getItemByKey st.categories "category_id" category_id with
  | none => .error ⟨404, "Category not found"⟩
  | some item =>
    .ok (response 200 (some (JVal.obj [("category", JVal.obj (serialize_category item))])), st)

/-- `_list_categories`: the paginated scan, collapsed to its aggregate. -/
def list_categories (st : Store) : Except HttpError (Resp × Store) :=
  .ok (response 200 (some (JVal.obj
        [("categories", JVal.arr (st.categories.map (fun it => JVal.obj (serialize_category it))))])),
       st)

/-- Update-expression builder of `_update_category`: the `name` and
`description` blocks, in source order. -/
def build_category_update (event_body : Obj) :
    Except HttpError (List (String × JVal) × List String) := do
  let name_sets : List (String × JVal) ←
    match event_body.lookup "name" with
    | some v => do
      let name ← validate_string v "name" 128
      Except.ok [("name", JVal.str name)]
    | none => Except.ok []
  let (description_sets, description_removes) ←
    match event_body.lookup "description" with
    | some v => do
      let description ← validate_description v
      match description with
      | none => Except.ok (([] : List (String × JVal)), ["description"])
      | some d => Except.ok ([("description", JVal.str d)], ([] : List String))
    | none => Except.ok (([] : List (String × JVal)), ([] : List String))
  Except.ok (name_sets ++ description_sets, description_removes)

/-- `_update_category`. -/
def update_category (category_id : String) (event_body : Obj) (st : Store) :
    Except HttpError (Resp × Store) := do
  if event_body.isEmpty then
    Except.error ⟨400, "Request body must contain at least one field to update"⟩
  else
    let (sets, removes) ← build_category_update event_body
    if sets.isEmpty ∧ removes.isEmpty then
      Except.error ⟨400, "No updatable fields provided"⟩
    else
      match updateIfExists st.categories "category_id" category_id sets removes with
      | none => Except.error ⟨404, "Category not found"⟩
      | some (attributes, categories') =>
        Except.ok (response 200 (some (JVal.obj [("category", JVal.obj (serialize_category attributes))])),
                   { st with categories := categories' })

/-- `_delete_category`. -/
def delete_category (category_id : String) (st : Store) : Except HttpError (Resp × Store) :=
  if category_has_links st.links category_id then
    .error ⟨409, "Category cannot be deleted while links reference it"⟩
  else
    match deleteIfExists st.categories "category_id" category_id with
    | none => .error ⟨404, "Category not found"⟩
    | some categories' => .ok (response 204 none, { st with categories := categories' })

/-- `_create_link` (`link_id` is the generated id, standing in for
`_generate_link_id`; `gen_sub` supplies generated sublink ids).  The item
carries `category_id` (head of the sanitized list) next to
`category_ids`, and omits absent description / empty sublinks. -/
def create_link (event_body : Obj) (link_id : String) (gen_sub : Nat → String) (st : Store) :
    Except HttpError (Resp × Store) := do
  let name ← validate_string (pyGet event_body "name") "name" 128
  let url ← validate_url (pyGet event_body "url")
  let category_ids ← extract_category_ids_from_body event_body st.categories
  let description ← validate_description (pyGet event_body "description")
  let sublinks ←
    match pyGet event_body "sublinks" with
    | JVal.null => Except.ok ([] : List Obj)
    | raw_sublinks => validate_sublinks raw_sublinks gen_sub
  let item : Obj :=
    [("link_id", JVal.str link_id), ("name", JVal.str name), ("url", JVal.str url),
     ("category_id", JVal.str (category_ids.headD "")),
     ("category_ids", JVal.arr (category_ids.map JVal.str))]
      ++ (match description with
          | some d => [("description", JVal.str d)]
          | none => [])
      ++ (if sublinks.isEmpty then [] else [("sublinks", JVal.arr (sublinks.map JVal.obj))])
  match putIfAbsent st.links "link_id" link_id item with
  | none => Except.error ⟨409, "Link already exists"⟩
  | some links' =>
    Except.ok (response 201 (some (JVal.obj [("link", JVal.obj (serialize item))])),
               { st with links := links' })

/-- `_fetch_link_item`. -/
def fetch_link_item (links : List Obj) (link_id : String) : Except HttpError Obj :=
  match getItemByKey links "link_id" link_id with
  | none => .error ⟨404, "Link not found"⟩
  | some item => .ok item

/-- `_get_link`. -/
def get_link (link_id : String) (st : Store) : Except HttpError (Resp × Store) := do
  let item ← fetch_link_item st.links link_id
  Except.ok (response 200 (some (JVal.obj [("link", JVal.obj (serialize item))])), st)

/-- `_list_links`: the paginated scan, collapsed to its aggregate. -/
def list_links (st : Store) : Except HttpError (Resp × Store) :=
  .ok (response 200 (some (JVal.obj
        [("links", JVal.arr (st.links.map (fun it => JVal.obj (serialize it))))])),
       st)

/-- The `name` block of `_update_link`. -/
def name_sets_of (event_body : Obj) : Except HttpError (List (String × JVal)) :=
  match event_body.lookup "name" with
  | some v => do
    let name ← validate_string v "name" 128
    Except.ok [("name", JVal.str name)]
  | none => Except.ok []

/-- The `url` block of `_update_link`. -/
def url_sets_of (event_body : Obj) : Except HttpError (List (String × JVal)) :=
  match event_body.lookup "url" with
  | some v => do
    let url ← validate_url v
    Except.ok [("url", JVal.str url)]
  | none => Except.ok []

/-- The `categoryIds` / legacy `categoryId` sanitation of `_update_link`
(`category_ids_to_set`). -/
def category_ids_to_set_of (event_body : Obj) : Except HttpError (Option (List String)) :=
  if hasKey event_body "categoryIds" then do
    let ids ← sanitize_category_ids (pyGet event_body "categoryIds") "categoryIds"
    Except.ok (some ids)
  else if hasKey event_body "categoryId" then do
    let ids ← sanitize_category_ids (pyGet event_body "categoryId") "categoryId"
    Except.ok (some ids)
  else
    Except.ok none

/-- The category existence checks and the two category `SET` clauses of
`_update_link`. -/
def category_sets_of (categories : List Obj) :
    Option (List String) → Except HttpError (List (String × JVal))
  | some ids => do
    let _ ← assert_categories_exist categories ids
    Except.ok [("category_ids", JVal.arr (ids.map JVal.str)),
               ("category_id", JVal.str (ids.headD ""))]
  | none => Except.ok []

/-- The `description` block of `_update_link` (and `_update_category`):
set-or-remove clauses. -/
def description_parts_of (event_body : Obj) :
    Except HttpError (List (String × JVal) × List String) :=
  match event_body.lookup "description" with
  | some v => do
    let description ← validate_description v
    match description with
    | none => Except.ok (([] : List (String × JVal)), ["description"])
    | some d => Except.ok ([("description", JVal.str d)], ([] : List String))
  | none => Except.ok (([] : List (String × JVal)), ([] : List String))

/-- The `sublinks` block of `_update_link`: replace-or-clear clauses. -/
def sublink_parts_of (event_body : Obj) (gen_sub : Nat → String) :
    Except HttpError (List (String × JVal) × List String) :=
  match event_body.lookup "sublinks" with
  | some JVal.null =>
    Except.ok (([] : List (String × JVal)), ["sublinks"])
  | some sublinks_value => do
    let validated ← validate_sublinks sublinks_value gen_sub
    Except.ok ([("sublinks", JVal.arr (validated.map JVal.obj))], ([] : List String))
  | none => Except.ok (([] : List (String × JVal)), ([] : List String))

/-- Update-expression builder of `_update_link`: the `name`, `url`,
category, `description` and `sublinks` blocks, in source order.  Needs the
categories table for the existence checks and `gen_sub` for generated
sublink ids. -/
def build_link_update (event_body : Obj) (categories : List Obj) (gen_sub : Nat → String) :
    Except HttpError (List (String × JVal) × List String) := do
  let name_sets ← name_sets_of event_body
  let url_sets ← url_sets_of event_body
  let category_ids_to_set ← category_ids_to_set_of event_body
  let category_sets ← category_sets_of categories category_ids_to_set
  let (description_sets, description_removes) ← description_parts_of event_body
  let (sublink_sets, sublink_removes) ← sublink_parts_of event_body gen_sub
  Except.ok (name_sets ++ url_sets ++ category_sets ++ description_sets ++ sublink_sets,
             description_removes ++ sublink_removes)

/-- `_update_link`. -/
def update_link (link_id : String) (event_body : Obj) (gen_sub : Nat → String) (st : Store) :
    Except HttpError (Resp × Store) := do
  if event_body.isEmpty then
    Except.error ⟨400, "Request body must contain at least one field to update"⟩
  else
    let (sets, removes) ← build_link_update event_body st.categories gen_sub
    if sets.isEmpty ∧ removes.isEmpty then
      Except.error ⟨400, "No updatable fields provided"⟩
    else
      match updateIfExists st.links "link_id" link_id sets removes with
      | none => Except.error ⟨404, "Link not found"⟩
      | some (attributes, links') =>
        Except.ok (response 200 (some (JVal.obj [("link", JVal.obj (serialize attributes))])),
                   { st with links := links' })

/-- `_delete_link`. -/
def delete_link (link_id : String) (st : Store) : Except HttpError (Resp × Store) :=
  match deleteIfExists st.links "link_id" link_id with
  | none => .error ⟨404, "Link not found"⟩
  | some links' => .ok (response 204 none, { st with links := links' })

/-- `_create_sublink` (`gen_sub 0` stands in for the single possible call
to `_generate_sublink_id`). -/
def create_sublink (link_id : String) (event_body : Obj) (gen_sub : Nat → String) (st : Store) :
    Except HttpError (Resp × Store) := do
  let name ← validate_string (pyGet event_body "name") "name" 128
  let url ← validate_url (pyGet event_body "url")
  let description ← validate_description (pyGet event_body "description")
  let sublink_id ←
    match pyGet event_body "id" with
    | JVal.null => Except.ok (gen_sub 0)
    | raw_id => validate_string raw_id "id" 64
  let item ← fetch_link_item st.links link_id
  let current_sublinks := extract_sublinks item
  if current_sublinks.any (fun existing =>
      match pyGet existing "id" with
      | JVal.str s => s == sublink_id
      | _ => false) then
    Except.error ⟨409, "Sublink already exists"⟩
  else
    let updated_sublinks := current_sublinks ++ [mkSublinkObj sublink_id name url description]
    match updateIfExists st.links "link_id" link_id
        [("sublinks", JVal.arr (updated_sublinks.map JVal.obj))] [] with
    | none => Except.error ⟨404, "Link not found"⟩
    | some (attributes, links') =>
      Except.ok (response 201 (some (JVal.obj [("link", JVal.obj (serialize attributes))])),
                 { st with links := links' })

/-- The in-place edit of `_update_sublink`: walk the current entries,
rewrite the first one whose id matches, and report `none` when the
`for`/`else` loop falls through (sublink not found). -/
def update_first_sublink (sublink_id : String) (apply_updates : Obj → Obj) :
    List Obj → Option (List Obj)
  | [] => none
  | sublink :: rest =>
    if (match pyGet sublink "id" with
        | JVal.str s => s == sublink_id
        | _ => false) then
      some (apply_updates sublink :: rest)
    else
      (update_first_sublink sublink_id apply_updates rest).map (fun tail => sublink :: tail)

/-- `_update_sublink`. -/
def update_sublink (link_id sublink_id : String) (event_body : Obj) (st : Store) :
    Except HttpError (Resp × Store) := do
  if event_body.isEmpty then
    Except.error ⟨400, "Request body must contain at least one field to update"⟩
  else
    let name_update : Option String ←
      match event_body.lookup "name" with
      | some v => do
        let name ← validate_string v "name" 128
        Except.ok (some name)
      | none => Except.ok none
    let url_update : Option String ←
      match event_body.lookup "url" with
      | some v => do
        let url ← validate_url v
        Except.ok (some url)
      | none => Except.ok none
    let (description_provided, description_update) ←
      match event_body.lookup "description" with
      | some v => do
        let description ← validate_description v
        Except.ok (true, description)
      | none => Except.ok (false, (none : Option String))
    if name_update.isNone ∧ url_update.isNone ∧ description_provided = false then
      Except.error ⟨400, "No updatable fields provided"⟩
    else do
      let item ← fetch_link_item st.links link_id
      let current_sublinks := extract_sublinks item
      let apply_updates : Obj → Obj := fun sublink =>
        let u1 := match name_update with
          | some name => setAttr sublink "name" (JVal.str name)
          | none => sublink
        let u2 := match url_update with
          | some url => setAttr u1 "url" (JVal.str url)
          | none => u1
        match description_update with
        | some d => setAttr u2 "description" (JVal.str d)
        | none => if description_provided then removeAttr u2 "description" else u2
      match update_first_sublink sublink_id apply_updates current_sublinks with
      | none => Except.error ⟨404, "Sublink not found"⟩
      | some new_sublinks =>
        match updateIfExists st.links "link_id" link_id
            [("sublinks", JVal.arr (new_sublinks.map JVal.obj))] [] with
        | none => Except.error ⟨404, "Link not found"⟩
        | some (attributes, links') =>
          Except.ok (response 200 (some (JVal.obj [("link", JVal.obj (serialize attributes))])),
                     { st with links := links' })

/-- `_delete_sublink`. -/
def delete_sublink (link_id sublink_id : String) (st : Store) :
    Except HttpError (Resp × Store) := do
  let item ← fetch_link_item st.links link_id
  let current_sublinks := extract_sublinks item
  let next_sublinks := current_sublinks.filter (fun entry =>
    match pyGet entry "id" with
    | JVal.str s => !(s == sublink_id)
    | _ => true)
  if next_sublinks.length = current_sublinks.length then
    Except.error ⟨404, "Sublink not found"⟩
  else
    match (if next_sublinks.isEmpty then
             updateIfExists st.links "link_id" link_id [] ["sublinks"]
           else
             updateIfExists st.links "link_id" link_id
               [("sublinks", JVal.arr (next_sublinks.map JVal.obj))] []) with
    | none => Except.error ⟨404, "Link not found"⟩
    | some (attributes, links') =>
      Except.ok (response 200 (some (JVal.obj [("link", JVal.obj (serialize attributes))])),
                 { st with links := links' })

/-- An incoming request: HTTP method, raw path, optional pre-parsed path
parameters, and the request body already parsed into an object (an absent
or empty body is the empty object, as in `_parse_json_body`; the JSON
text layer itself is outside the model). -/
structure Event where
  method : String
  rawPath : String
  pathParameters : List (String × String)
  body : Obj

/-- The generated identifiers an invocation may consume, standing in for
`_generate_link_id`, `_generate_category_id` and `_generate_sublink_id`. -/
structure Gen where
  link_id : String
  category_id : String
  sub : Nat → String

/-- Python `raw_path.split("/")` (split on every slash, keeping empties). -/
def splitSlashAux : List Char → List Char → List String
  | [], acc => [⟨acc.reverse⟩]
  | c :: cs, acc =>
    if c = '/' then (⟨acc.reverse⟩ : String) :: splitSlashAux cs []
    else splitSlashAux cs (c :: acc)

/-- `[segment for segment in raw_path.split("/") if segment]`. -/
def pySplitPath (raw_path : String) : List String :=
  (splitSlashAux raw_path.data []).filter (fun segment => !(segment == ""))

/-- `_extract_resource_id`: prefer a non-empty structured path parameter,
fall back to positional raw-path segments. -/
def extract_resource_id (event : Event) (collection : String) (parameter_name : String) :
    Option String :=
  let from_path :=
    match pySplitPath event.rawPath with
    | seg0 :: seg1 :: _ => if seg0 = collection then some seg1 else none
    | _ => none
  match event.pathParameters.lookup parameter_name with
  | some candidate => if candidate ≠ "" then some candidate else from_path
  | none => from_path

/-- `_extract_link_id`. -/
def extract_link_id (event : Event) : Option String :=
  extract_resource_id event "links" "linkId"

/-- `_extract_category_id`. -/
def extract_category_id (event : Event) : Option String :=
  extract_resource_id event "categories" "categoryId"

/-- `_extract_sublink_id`. -/
def extract_sublink_id (event : Event) : Option String :=
  let from_path :=
    match pySplitPath event.rawPath with
    | seg0 :: _ :: seg2 :: seg3 :: _ =>
      if seg0 = "links" ∧ seg2 = "sublinks" then some seg3 else none
    | _ => none
  match event.pathParameters.lookup "sublinkId" with
  | some candidate => if candidate ≠ "" then some candidate else from_path
  | none => from_path

/-- `handler`: method extraction, OPTIONS short-circuit, and the
method+path routing tree, delegating to the operations above (the
`_parse_json_body` calls are represented by `event.body`). -/
def handler (gen : Gen) (event : Event) (st : Store) : Except HttpError (Resp × Store) :=
  let method := strUpper event.method
  if method = "OPTIONS" then .ok (response 204 none, st)
  else
    let raw_path := event.rawPath
    if strStartsWith raw_path "/links" then
      if method = "GET" ∧ raw_path = "/links" then list_links st
      else if method = "POST" ∧ raw_path = "/links" then
        create_link event.body gen.link_id gen.sub st
      else
        match extract_link_id event with
        | none => .error ⟨404, "Route not found"⟩
        | some link_id =>
          let segments := pySplitPath raw_path
          if 3 ≤ segments.length ∧ segments.getD 2 "" = "sublinks" then
            if method = "POST" ∧ segments.length = 3 then
              create_sublink link_id event.body gen.sub st
            else
              match extract_sublink_id event with
              | none => .error ⟨404, "Route not found"⟩
              | some sublink_id =>
                if method = "PUT" then update_sublink link_id sublink_id event.body st
                else if method = "DELETE" then delete_sublink link_id sublink_id st
                else .error ⟨405, "Method not allowed"⟩
          else if method = "GET" then get_link link_id st
          else if method = "PUT" then update_link link_id event.body gen.sub st
          else if method = "DELETE" then delete_link link_id st
          else .error ⟨405, "Method not allowed"⟩
    else if strStartsWith raw_path "/categories" then
      if method = "GET" ∧ raw_path = "/categories" then list_categories st
      else if method = "POST" ∧ raw_path = "/categories" then
        create_category event.body gen.category_id st
      else
        match extract_category_id event with
        | none => .error ⟨404, "Route not found"⟩
        | some category_id =>
          if method = "GET" then get_category category_id st
          else if method = "PUT" then update_category category_id event.body st
          else if method = "DELETE" then delete_category category_id st
          else .error ⟨405, "Method not allowed"⟩
    else .error ⟨404, "Route not found"⟩

/-- `with_error_handling`: an `HttpError` becomes a `{message}` response;
the store is unchanged on error, since every operation performs its only
write as its final step. -/
def run (op : Store → Except HttpError (Resp × Store)) (st : Store) : Resp × Store :=
  match op st with
  | .ok result => result
  | .error err =>
    (response err.status_code (some (JVal.obj [("message", JVal.str err.message)])), st)

/-- Deduplication relative to a set of already-seen values, keeping the
first occurrence of each remaining value. -/
def dedupFrom (seen : List String) : List String → List String
  | [] => []
  | x :: rest => if x ∈ seen then dedupFrom seen rest else x :: dedupFrom (x :: seen) rest

/-- Deduplication preserving first-seen order. -/
def dedupFirstSeen (xs : List String) : List String := dedupFrom [] xs

/-- Modelled from the spec (Serializer): the `categoryIds` sequence is the
modern list field deduplicated preserving first-seen order, with the
legacy singular field prepended when present and not already contained.
Stated from the words of the spec, for comparison with
`serialize_category_ids`. -/
def spec_category_ids (modern : List String) (legacy : Option String) : List String :=
  let deduped := dedupFirstSeen modern
  match legacy with
  | some c => if c ∈ deduped then deduped else c :: deduped
  | none => deduped

/-- A stored link references a category: the modern `category_ids` list
attribute contains it, or the legacy `category_id` attribute equals it. -/
def references_category (link : Obj) (category_id : String) : Prop :=
  (∃ elems, pyGet link "category_ids" = JVal.arr elems ∧ JVal.str category_id ∈ elems)
    ∨ pyGet link "category_id" = JVal.str category_id

/-- The ids carried by a list of sublink entries. -/
def sublink_ids (entries : List Obj) : List String :=
  entries.map (fun e =>
    match pyGet e "id" with
    | JVal.str s => s
    | _ => "")

/-- A fixed identifier supply for concrete instantiations. -/
def genDefault : Gen := ⟨"lnk-0", "cat-0", fun n => "sln-" ++ toString n⟩

/-! ### Helper lemmas -/

theorem pyStrip_length_le (s : String) : (pyStrip s).length ≤ s.length := by
  show ((s.data.dropWhile Char.isWhitespace).reverse.dropWhile Char.isWhitespace).reverse.length
      ≤ s.data.length
  rw [List.length_reverse]
  calc ((s.data.dropWhile Char.isWhitespace).reverse.dropWhile Char.isWhitespace).length
      ≤ (s.data.dropWhile Char.isWhitespace).reverse.length :=
        (List.dropWhile_sublist _).length_le
    _ = (s.data.dropWhile Char.isWhitespace).length := List.length_reverse _
    _ ≤ s.data.length := (List.dropWhile_sublist _).length_le

theorem validate_string_ok (s field : String) (max_length : Nat)
    (hne : pyStrip s ≠ "") (hlen : (pyStrip s).length ≤ max_length) :
    validate_string (JVal.str s) field max_length = Except.ok (pyStrip s) := by
  simp only [validate_string]
  rw [if_neg (by simp [hne]), if_neg (by omega)]

theorem strStartsWith_strLower (s p : String) (h : strStartsWith s p = true) :
    strStartsWith (strLower s) (strLower p) = true := by
  simp only [strStartsWith, List.isPrefixOf_iff_prefix] at h ⊢
  exact h.map _

/-! ### C1 -/

/-- C1: the spec (and the repository test
`test_validate_url_accepts_plain_phone_number`) expects
`_validate_url("+49 123 456789")` to return `"tel:+49123456789"`, but the
code rejects any value without the `tel:` prefix, so this input fails with
the `http://` message instead; the `tel:`-prefixed form of the same number
does normalize as expected, and `"example.com"` fails with a message
containing "must start with http:// or https://" as claimed. -/
theorem c1_validate_url_plain_phone_rejected :
    validate_url (JVal.str "+49 123 456789") "url"
      = Except.error ⟨400, "\x27url\x27 must start with http:// or https://"⟩
    ∧ (∀ result, validate_url (JVal.str "+49 123 456789") "url" ≠ Except.ok result)
    ∧ validate_url (JVal.str "tel:+49 123 456789") "url" = Except.ok "tel:+49123456789"
    ∧ validate_url (JVal.str "example.com") "url"
      = Except.error ⟨400, "\x27url\x27 must start with http:// or https://"⟩
    ∧ strContainsSub "\x27url\x27 must start with http:// or https://"
        "must start with http:// or https://" = true := by
  refine ⟨rfl, ?_, rfl, rfl, by decide⟩
  intro result h
  exact Except.noConfusion ((rfl :
    validate_url (JVal.str "+49 123 456789") "url"
      = Except.error ⟨400, "\x27url\x27 must start with http:// or https://"⟩).symm.trans h)

/-! ### C2 -/

/-- C2 counterexample: `"HTTP://example.com"` meets every hypothesis of the
claim — non-empty after trimming, within 2048 characters, not `tel:`, and
its lower-cased form starts with `http://` — yet `_validate_url` rejects
it, because the code matches the regex `^https?://` against the trimmed
value, not the lower-cased one. -/
theorem c2_counterexample :
    pyStrip "HTTP://example.com" ≠ ""
    ∧ "HTTP://example.com".length ≤ 2048
    ∧ strStartsWith (strLower (pyStrip "HTTP://example.com")) "tel:" = false
    ∧ strStartsWith (strLower (pyStrip "HTTP://example.com")) "http://" = true
    ∧ validate_url (JVal.str "HTTP://example.com") "url"
        = Except.error ⟨400, "\x27url\x27 must start with http:// or https://"⟩ := by
  exact ⟨by decide, by decide, by decide, by decide, rfl⟩

/-- C2 (amended): for a string that is non-empty after trimming, at most
2048 characters and not `tel:`-prefixed (case-insensitively), the
`http`-scheme test is case-sensitive on the trimmed value: `_validate_url`
succeeds with the trimmed string when the trimmed value itself starts with
`http://` or `https://`, and fails with the 400 prefix error when even the
lower-cased form starts with neither prefix. -/
theorem c2_validate_url_scheme_check (s : String)
    (hne : pyStrip s ≠ "") (hlen : s.length ≤ 2048)
    (htel : strStartsWith (strLower (pyStrip s)) "tel:" = false) :
    (strStartsWith (pyStrip s) "http://" = true ∨ strStartsWith (pyStrip s) "https://" = true →
      validate_url (JVal.str s) "url" = Except.ok (pyStrip s))
    ∧ (strStartsWith (strLower (pyStrip s)) "http://" = false →
        strStartsWith (strLower (pyStrip s)) "https://" = false →
        validate_url (JVal.str s) "url"
          = Except.error ⟨400, "\x27url\x27 must start with http:// or https://"⟩) := by
  have hvs : validate_string (JVal.str s) "url" 2048 = Except.ok (pyStrip s) :=
    validate_string_ok s "url" 2048 hne (le_trans (pyStrip_length_le s) hlen)
  have htel' : strStartsWith (strLower (pyStrip s)) "tel:" ≠ true := by simp [htel]
  constructor
  · intro hhttp
    simp only [validate_url, hvs, Except.bind, bind]
    rw [if_neg htel', if_pos hhttp]
    rfl
  · intro hlow1 hlow2
    have h1 : strStartsWith (pyStrip s) "http://" ≠ true := by
      intro hh
      have hmap := strStartsWith_strLower _ _ hh
      rw [show strLower "http://" = "http://" from rfl] at hmap
      rw [hmap] at hlow1
      cases hlow1
    have h2 : strStartsWith (pyStrip s) "https://" ≠ true := by
      intro hh
      have hmap := strStartsWith_strLower _ _ hh
      rw [show strLower "https://" = "https://" from rfl] at hmap
      rw [hmap] at hlow2
      cases hlow2
    simp only [validate_url, hvs, Except.bind, bind]
    rw [if_neg htel', if_neg (by rintro (h | h) <;> [exact h1 h; exact h2 h])]
    rfl

/-- C2 witness: the amended theorem applied at `"http://x"` and at
`"ftp://x"`. -/
theorem c2_validate_url_scheme_check_witness :
    validate_url (JVal.str "http://x") "url" = Except.ok "http://x"
    ∧ validate_url (JVal.str "ftp://x") "url"
        = Except.error ⟨400, "\x27url\x27 must start with http:// or https://"⟩ :=
  ⟨(c2_validate_url_scheme_check "http://x" (by decide) (by decide) (by decide)).1
      (Or.inl (by decide)),
   (c2_validate_url_scheme_check "ftp://x" (by decide) (by decide) (by decide)).2
      (by decide) (by decide)⟩

/-! ### C3 and C4 -/

theorem except_bind_ok {ε α β : Type} (x : Except ε α) (f : α → Except ε β) (b : β)
    (h : x >>= f = Except.ok b) : ∃ a, x = Except.ok a ∧ f a = Except.ok b := by
  cases x with
  | ok a => exact ⟨a, rfl, h⟩
  | error e => simp [Bind.bind, Except.bind] at h

theorem sublink_ids_cons (id name url : String) (d : Option String) (rest : List Obj) :
    sublink_ids (mkSublinkObj id name url d :: rest) = id :: sublink_ids rest := rfl

theorem validate_sublinks_aux_nodup (gen_sub : Nat → String) (allow : Bool)
    (elems : List JVal) :
    ∀ (index gen_count : Nat) (seen_ids : List String) (out : List Obj),
    validate_sublinks_aux gen_sub allow elems index gen_count seen_ids = Except.ok out →
    (sublink_ids out).Nodup ∧ ∀ id ∈ sublink_ids out, id ∉ seen_ids := by
  induction elems with
  | nil =>
    intro index gen_count seen_ids out h
    simp only [validate_sublinks_aux] at h
    cases h
    simp [sublink_ids]
  | cons c rest ih =>
    intro index gen_count seen_ids out h
    simp only [validate_sublinks_aux] at h
    split at h
    case _ co =>
      have step : ∀ (sublink_id : String) (gen_count2 : Nat),
          (if sublink_id ∈ seen_ids then
            (Except.error ⟨400, "Sublink identifiers must be unique"⟩ : Except HttpError (List Obj))
          else do
            let name ← validate_string (pyGet co "name") ("sublinks[" ++ toString index ++ "].name") 128
            let url ← validate_url (pyGet co "url") ("sublinks[" ++ toString index ++ "].url")
            let description ← validate_description (pyGet co "description")
            let sanitized_rest ← validate_sublinks_aux gen_sub allow rest
              (index + 1) gen_count2 (sublink_id :: seen_ids)
            Except.ok (mkSublinkObj sublink_id name url description :: sanitized_rest)) = Except.ok out →
          (sublink_ids out).Nodup ∧ ∀ id ∈ sublink_ids out, id ∉ seen_ids := by
        intro sublink_id gen_count2 hbody
        by_cases hmem : sublink_id ∈ seen_ids
        · rw [if_pos hmem] at hbody
          cases hbody
        · rw [if_neg hmem] at hbody
          obtain ⟨name, hname, hbody⟩ := except_bind_ok _ _ _ hbody
          obtain ⟨url, hurl, hbody⟩ := except_bind_ok _ _ _ hbody
          obtain ⟨description, hdesc, hbody⟩ := except_bind_ok _ _ _ hbody
          obtain ⟨sanitized_rest, hrest, hbody⟩ := except_bind_ok _ _ _ hbody
          cases hbody
          obtain ⟨hnodup, hseen⟩ := ih _ _ _ _ hrest
          rw [sublink_ids_cons]
          refine ⟨List.nodup_cons.mpr ⟨fun hm => (hseen _ hm) (List.mem_cons_self _ _), hnodup⟩, ?_⟩
          intro id hm
          rcases List.mem_cons.mp hm with h1 | h1
          · subst h1; exact hmem
          · exact fun hs => (hseen _ h1) (List.mem_cons_of_mem _ hs)
      split at h
      · split at h
        · cases h
        · exact step _ _ h
      case _ raw_id hraw =>
        obtain ⟨v, hv, h⟩ := except_bind_ok _ _ _ h
        exact step _ _ h
    case _ x hne' =>
      cases h

theorem except_ok_bind {ε α β : Type} (a : α) (f : α → Except ε β) :
    (Except.ok (ε := ε) a >>= f) = f a := rfl

def c3_body : Obj :=
  [("name", JVal.str "Example"), ("url", JVal.str "http://x.org"),
   ("categoryIds", JVal.arr [JVal.str "cat-1"]),
   ("sublinks", JVal.arr
     [JVal.obj [("id", JVal.str "a"), ("name", JVal.str "n"), ("url", JVal.str "http://x")],
      JVal.obj [("id", JVal.str "a"), ("name", JVal.str "m"), ("url", JVal.str "http://y")]])]

def c3_store : Store :=
  ⟨[], [[("category_id", JVal.str "cat-1"), ("name", JVal.str "Reading")]]⟩

/-- C3 counterexample: a link-create request whose submitted sublink list
contains two entries with the same id fails with status 400 ("Sublink
identifiers must be unique"), not with Conflict 409 as the claim states. -/
theorem c3_counterexample :
    create_link c3_body "lnk-1" genDefault.sub c3_store
      = Except.error ⟨400, "Sublink identifiers must be unique"⟩
    ∧ ∀ message, create_link c3_body "lnk-1" genDefault.sub c3_store
        ≠ Except.error ⟨409, message⟩ := by
  refine ⟨rfl, fun message hcontra => ?_⟩
  have h2 := ((rfl : create_link c3_body "lnk-1" genDefault.sub c3_store
      = Except.error ⟨400, "Sublink identifiers must be unique"⟩)).symm.trans hcontra
  have h3 : (400 : Nat) = 409 := congrArg HttpError.status_code (Except.error.inj h2)
  exact absurd h3 (by decide)

/-- C3 (amended): duplicate ids inside one submitted sublink list are a
BadRequest (400), so a successfully validated sublink list always has
pairwise-distinct ids; the Conflict (409) applies to `_create_sublink`
when the supplied id equals the id of an existing sublink of the parent
link. -/
theorem c3_amended :
    (∀ value gen_sub out, validate_sublinks value gen_sub = Except.ok out →
      (sublink_ids out).Nodup)
    ∧ (∀ (link_id sublink_id name url : String) (gen_sub : Nat → String) (st : Store) (item : Obj),
        validate_string (JVal.str name) "name" 128 = Except.ok name →
        validate_url (JVal.str url) "url" = Except.ok url →
        validate_string (JVal.str sublink_id) "id" 64 = Except.ok sublink_id →
        getItemByKey st.links "link_id" link_id = some item →
        (∃ entry ∈ extract_sublinks item, pyGet entry "id" = JVal.str sublink_id) →
        create_sublink link_id
          [("id", JVal.str sublink_id), ("name", JVal.str name), ("url", JVal.str url)]
          gen_sub st
          = Except.error ⟨409, "Sublink already exists"⟩) := by
  constructor
  · intro value gen_sub out h
    cases value with
    | arr elems => exact (validate_sublinks_aux_nodup gen_sub true elems 0 0 [] out h).1
    | null =>
      cases h
      simp [sublink_ids]
    | bool b => cases h
    | num n => cases h
    | str s => cases h
    | obj o => cases h
  · intro link_id sublink_id name url gen_sub st item hname hurl hid hitem hdup
    have hany : (extract_sublinks item).any (fun existing =>
        match pyGet existing "id" with
        | JVal.str s => s == sublink_id
        | _ => false) = true := by
      obtain ⟨entry, hin, hide⟩ := hdup
      refine List.any_eq_true.mpr ⟨entry, hin, ?_⟩
      rw [hide]
      simp
    simp only [create_sublink,
      show pyGet [("id", JVal.str sublink_id), ("name", JVal.str name), ("url", JVal.str url)]
        "name" = JVal.str name from rfl,
      show pyGet [("id", JVal.str sublink_id), ("name", JVal.str name), ("url", JVal.str url)]
        "url" = JVal.str url from rfl,
      show pyGet [("id", JVal.str sublink_id), ("name", JVal.str name), ("url", JVal.str url)]
        "description" = JVal.null from rfl,
      show pyGet [("id", JVal.str sublink_id), ("name", JVal.str name), ("url", JVal.str url)]
        "id" = JVal.str sublink_id from rfl,
      hname, hurl, hid, except_ok_bind, validate_description]
    simp only [fetch_link_item, hitem, except_ok_bind]
    rw [if_pos hany]

theorem splitSlashAux_no_slash (l : List Char) :
    ∀ acc, '/' ∉ l → splitSlashAux l acc = [⟨acc.reverse ++ l⟩] := by
  induction l with
  | nil => intro acc h; simp [splitSlashAux]
  | cons c cs ih =>
    intro acc h
    have hc : ¬ c = '/' := fun hc => h (by rw [hc]; exact List.mem_cons_self _ _)
    simp only [splitSlashAux]
    rw [if_neg hc, ih (c :: acc) (fun hm => h (List.mem_cons_of_mem _ hm))]
    congr 1
    simp

theorem splitSlashAux_slash_head (l acc : List Char) :
    splitSlashAux ('/' :: l) acc = (⟨acc.reverse⟩ : String) :: splitSlashAux l [] := by
  simp [splitSlashAux]

theorem splitSlashAux_append_slash (l₁ : List Char) :
    ∀ (acc l₂ : List Char), '/' ∉ l₁ →
    splitSlashAux (l₁ ++ '/' :: l₂) acc
      = (⟨acc.reverse ++ l₁⟩ : String) :: splitSlashAux l₂ [] := by
  induction l₁ with
  | nil => intro acc l₂ h; simp [splitSlashAux]
  | cons c cs ih =>
    intro acc l₂ h
    have hc : ¬ c = '/' := fun hc => h (by rw [hc]; exact List.mem_cons_self _ _)
    simp only [List.cons_append, splitSlashAux, List.append_eq]
    rw [if_neg hc, ih (c :: acc) l₂ (fun hm => h (List.mem_cons_of_mem _ hm))]
    congr 2
    simp

theorem pySplitPath_links_id (a : String) (ha : a ≠ "") (ha' : '/' ∉ a.data) :
    pySplitPath ("/links/" ++ a) = ["links", a] := by
  have hdata : ("/links/" ++ a).data = '/' :: ("links".data ++ '/' :: a.data) := by
    simp [String.data_append]
  simp only [pySplitPath, hdata, splitSlashAux_slash_head]
  rw [splitSlashAux_append_slash "links".data [] a.data (by decide),
    splitSlashAux_no_slash a.data [] ha']
  simp [List.filter, beq_eq_false_iff_ne.mpr ha]

theorem pySplitPath_links_sub (a : String) (ha : a ≠ "") (ha' : '/' ∉ a.data) :
    pySplitPath ("/links/" ++ a ++ "/sublinks") = ["links", a, "sublinks"] := by
  have hdata : ("/links/" ++ a ++ "/sublinks").data
      = '/' :: ("links".data ++ '/' :: (a.data ++ '/' :: "sublinks".data)) := by
    simp [String.data_append]
  simp only [pySplitPath, hdata, splitSlashAux_slash_head]
  rw [splitSlashAux_append_slash "links".data [] _ (by decide),
    splitSlashAux_append_slash a.data [] _ ha',
    splitSlashAux_no_slash "sublinks".data [] (by decide)]
  simp [List.filter, beq_eq_false_iff_ne.mpr ha]

theorem pySplitPath_links_sub_id (a b : String) (ha : a ≠ "") (ha' : '/' ∉ a.data)
    (hb : b ≠ "") (hb' : '/' ∉ b.data) :
    pySplitPath ("/links/" ++ a ++ "/sublinks/" ++ b) = ["links", a, "sublinks", b] := by
  have hdata : ("/links/" ++ a ++ "/sublinks/" ++ b).data
      = '/' :: ("links".data ++ '/' :: (a.data ++ '/' :: ("sublinks".data ++ '/' :: b.data))) := by
    simp [String.data_append]
  simp only [pySplitPath, hdata, splitSlashAux_slash_head]
  rw [splitSlashAux_append_slash "links".data [] _ (by decide),
    splitSlashAux_append_slash a.data [] _ ha',
    splitSlashAux_append_slash "sublinks".data [] _ (by decide),
    splitSlashAux_no_slash b.data [] hb']
  simp [List.filter, beq_eq_false_iff_ne.mpr ha, beq_eq_false_iff_ne.mpr hb]

theorem pySplitPath_categories_id (a : String) (ha : a ≠ "") (ha' : '/' ∉ a.data) :
    pySplitPath ("/categories/" ++ a) = ["categories", a] := by
  have hdata : ("/categories/" ++ a).data = '/' :: ("categories".data ++ '/' :: a.data) := by
    simp [String.data_append]
  simp only [pySplitPath, hdata, splitSlashAux_slash_head]
  rw [splitSlashAux_append_slash "categories".data [] a.data (by decide),
    splitSlashAux_no_slash a.data [] ha']
  simp [List.filter, beq_eq_false_iff_ne.mpr ha]

theorem strStartsWith_true_of_data (s p : String) (t : List Char) (h : s.data = p.data ++ t) :
    strStartsWith s p = true := by
  simp [strStartsWith, List.isPrefixOf_iff_prefix, h]

theorem string_ne_of_length (s t : String) (h : s.length ≠ t.length) : s ≠ t :=
  fun he => h (congrArg String.length he)

section c4aux

variable (gen : Gen) (st : Store) (body : Obj) (m a b p : String)

theorem c4aux_links_id (ha : a ≠ "") (ha' : '/' ∉ a.data)
    (hM : strUpper m ∉ (["OPTIONS", "GET", "PUT", "DELETE"] : List String)) :
    handler gen ⟨m, "/links/" ++ a, [], body⟩ st = Except.error ⟨405, "Method not allowed"⟩ := by
  simp only [List.mem_cons, List.mem_singleton, not_or] at hM
  obtain ⟨h1, h2, h3, h4⟩ := hM
  have hpfx : strStartsWith ("/links/" ++ a) "/links" = true :=
    strStartsWith_true_of_data _ _ ('/' :: a.data) (by simp [String.data_append])
  have hne : ("/links/" ++ a) ≠ "/links" :=
    string_ne_of_length _ _ (by rw [String.length_append]; show 7 + a.length ≠ 6; omega)
  have hsplit := pySplitPath_links_id a ha ha'
  simp [handler, hpfx, hne, hsplit, extract_link_id, extract_resource_id, List.lookup,
    h1, h2, h3, h4]

theorem c4aux_links_col (hM : strUpper m ∉ (["OPTIONS", "GET", "POST"] : List String)) :
    handler gen ⟨m, "/links", [], body⟩ st = Except.error ⟨404, "Route not found"⟩ := by
  simp only [List.mem_cons, List.mem_singleton, not_or] at hM
  obtain ⟨h1, h2, h3⟩ := hM
  simp [handler, h1, h2, h3, extract_link_id, extract_resource_id, List.lookup,
    show strStartsWith "/links" "/links" = true from rfl,
    show pySplitPath "/links" = ["links"] from rfl]

theorem c4aux_sublinks_col (ha : a ≠ "") (ha' : '/' ∉ a.data)
    (hM : strUpper m ∉ (["OPTIONS", "POST"] : List String)) :
    handler gen ⟨m, "/links/" ++ a ++ "/sublinks", [], body⟩ st
      = Except.error ⟨404, "Route not found"⟩ := by
  simp only [List.mem_cons, List.mem_singleton, not_or] at hM
  obtain ⟨h1, h2⟩ := hM
  have hpfx : strStartsWith ("/links/" ++ a ++ "/sublinks") "/links" = true :=
    strStartsWith_true_of_data _ _ ('/' :: (a.data ++ "/sublinks".data))
      (by simp [String.data_append])
  have hne : ("/links/" ++ a ++ "/sublinks") ≠ "/links" :=
    string_ne_of_length _ _ (by
      rw [String.length_append, String.length_append]
      show 7 + a.length + 9 ≠ 6
      omega)
  have hsplit := pySplitPath_links_sub a ha ha'
  simp [handler, hpfx, hne, hsplit, extract_link_id, extract_resource_id,
    extract_sublink_id, List.lookup, h1, h2]

theorem c4aux_sublink_id (ha : a ≠ "") (ha' : '/' ∉ a.data) (hb : b ≠ "") (hb' : '/' ∉ b.data)
    (hM : strUpper m ∉ (["OPTIONS", "PUT", "DELETE"] : List String)) :
    handler gen ⟨m, "/links/" ++ a ++ "/sublinks/" ++ b, [], body⟩ st
      = Except.error ⟨405, "Method not allowed"⟩ := by
  simp only [List.mem_cons, List.mem_singleton, not_or] at hM
  obtain ⟨h1, h2, h3⟩ := hM
  have hpfx : strStartsWith ("/links/" ++ a ++ "/sublinks/" ++ b) "/links" = true :=
    strStartsWith_true_of_data _ _ ('/' :: (a.data ++ "/sublinks/".data ++ b.data))
      (by simp [String.data_append])
  have hne : ("/links/" ++ a ++ "/sublinks/" ++ b) ≠ "/links" :=
    string_ne_of_length _ _ (by
      rw [String.length_append, String.length_append, String.length_append]
      show 7 + a.length + 10 + b.length ≠ 6
      omega)
  have hsplit := pySplitPath_links_sub_id a b ha ha' hb hb'
  simp [handler, hpfx, hne, hsplit, extract_link_id, extract_resource_id,
    extract_sublink_id, List.lookup, h1, h2, h3]

theorem c4aux_categories_col (hM : strUpper m ∉ (["OPTIONS", "GET", "POST"] : List String)) :
    handler gen ⟨m, "/categories", [], body⟩ st = Except.error ⟨404, "Route not found"⟩ := by
  simp only [List.mem_cons, List.mem_singleton, not_or] at hM
  obtain ⟨h1, h2, h3⟩ := hM
  simp [handler, h1, h2, h3, extract_category_id, extract_resource_id, List.lookup,
    show strStartsWith "/categories" "/links" = false from rfl,
    show strStartsWith "/categories" "/categories" = true from rfl,
    show pySplitPath "/categories" = ["categories"] from rfl]

theorem c4aux_categories_id (ha : a ≠ "") (ha' : '/' ∉ a.data)
    (hM : strUpper m ∉ (["OPTIONS", "GET", "PUT", "DELETE"] : List String)) :
    handler gen ⟨m, "/categories/" ++ a, [], body⟩ st
      = Except.error ⟨405, "Method not allowed"⟩ := by
  simp only [List.mem_cons, List.mem_singleton, not_or] at hM
  obtain ⟨h1, h2, h3, h4⟩ := hM
  have hnol : strStartsWith ("/categories/" ++ a) "/links" = false := by
    simp [strStartsWith, String.data_append, List.isPrefixOf]
  have hpfx : strStartsWith ("/categories/" ++ a) "/categories" = true :=
    strStartsWith_true_of_data _ _ ('/' :: a.data) (by simp [String.data_append])
  have hne : ("/categories/" ++ a) ≠ "/categories" :=
    string_ne_of_length _ _ (by rw [String.length_append]; show 12 + a.length ≠ 11; omega)
  have hsplit := pySplitPath_categories_id a ha ha'
  simp [handler, hnol, hpfx, hne, hsplit, extract_category_id, extract_resource_id,
    List.lookup, h1, h2, h3, h4]

theorem c4aux_unknown (hM : strUpper m ≠ "OPTIONS")
    (hp1 : strStartsWith p "/links" = false) (hp2 : strStartsWith p "/categories" = false) :
    handler gen ⟨m, p, [], body⟩ st = Except.error ⟨404, "Route not found"⟩ := by
  simp [handler, hM, hp1, hp2]

end c4aux

/-- C4 counterexample: `DELETE /links` addresses the recognized `links`
collection with an unsupported verb, but the handler answers NotFound
(404), not MethodNotAllowed (405) as the claim states. -/
theorem c4_counterexample :
    handler genDefault ⟨"DELETE", "/links", [], []⟩ ⟨[], []⟩
      = Except.error ⟨404, "Route not found"⟩
    ∧ ∀ message, handler genDefault ⟨"DELETE", "/links", [], []⟩ ⟨[], []⟩
        ≠ Except.error ⟨405, message⟩ := by
  refine ⟨rfl, fun message hcontra => ?_⟩
  have h2 := ((rfl : handler genDefault ⟨"DELETE", "/links", [], []⟩ ⟨[], []⟩
      = Except.error ⟨404, "Route not found"⟩)).symm.trans hcontra
  have h3 : (404 : Nat) = 405 := congrArg HttpError.status_code (Except.error.inj h2)
  exact absurd h3 (by decide)

/-- C4 (amended): unmatched method+path pairs split as follows — an
unsupported verb on a single-resource path (`/links/{id}`,
`/links/{id}/sublinks/{sid}`, `/categories/{id}`) fails 405; an
unsupported verb on a collection path (`/links`, `/categories`), a
non-POST verb on `/links/{id}/sublinks`, and a path under neither
resource all fail 404. -/
theorem c4_route_fallbacks (gen : Gen) (st : Store) (body : Obj) (m a b p : String)
    (ha : a ≠ "") (ha' : '/' ∉ a.data) (hb : b ≠ "") (hb' : '/' ∉ b.data) :
    (strUpper m ∉ (["OPTIONS", "GET", "POST"] : List String) →
      handler gen ⟨m, "/links", [], body⟩ st = Except.error ⟨404, "Route not found"⟩)
    ∧ (strUpper m ∉ (["OPTIONS", "GET", "PUT", "DELETE"] : List String) →
      handler gen ⟨m, "/links/" ++ a, [], body⟩ st = Except.error ⟨405, "Method not allowed"⟩)
    ∧ (strUpper m ∉ (["OPTIONS", "POST"] : List String) →
      handler gen ⟨m, "/links/" ++ a ++ "/sublinks", [], body⟩ st
        = Except.error ⟨404, "Route not found"⟩)
    ∧ (strUpper m ∉ (["OPTIONS", "PUT", "DELETE"] : List String) →
      handler gen ⟨m, "/links/" ++ a ++ "/sublinks/" ++ b, [], body⟩ st
        = Except.error ⟨405, "Method not allowed"⟩)
    ∧ (strUpper m ∉ (["OPTIONS", "GET", "POST"] : List String) →
      handler gen ⟨m, "/categories", [], body⟩ st = Except.error ⟨404, "Route not found"⟩)
    ∧ (strUpper m ∉ (["OPTIONS", "GET", "PUT", "DELETE"] : List String) →
      handler gen ⟨m, "/categories/" ++ a, [], body⟩ st
        = Except.error ⟨405, "Method not allowed"⟩)
    ∧ (strUpper m ≠ "OPTIONS" → strStartsWith p "/links" = false →
        strStartsWith p "/categories" = false →
      handler gen ⟨m, p, [], body⟩ st = Except.error ⟨404, "Route not found"⟩) :=
  ⟨fun hM => c4aux_links_col gen st body m hM,
   fun hM => c4aux_links_id gen st body m a ha ha' hM,
   fun hM => c4aux_sublinks_col gen st body m a ha ha' hM,
   fun hM => c4aux_sublink_id gen st body m a b ha ha' hb hb' hM,
   fun hM => c4aux_categories_col gen st body m hM,
   fun hM => c4aux_categories_id gen st body m a ha ha' hM,
   fun hM hp1 hp2 => c4aux_unknown gen st body m p hM hp1 hp2⟩

/-- C4 witness: the amended routing theorem at concrete inputs. -/
theorem c4_route_fallbacks_witness :
    handler genDefault ⟨"PATCH", "/links/abc", [], []⟩ ⟨[], []⟩
      = Except.error ⟨405, "Method not allowed"⟩
    ∧ handler genDefault ⟨"PATCH", "/links/abc/sublinks", [], []⟩ ⟨[], []⟩
      = Except.error ⟨404, "Route not found"⟩
    ∧ handler genDefault ⟨"PATCH", "/foo", [], []⟩ ⟨[], []⟩
      = Except.error ⟨404, "Route not found"⟩ :=
  ⟨(c4_route_fallbacks genDefault ⟨[], []⟩ [] "PATCH" "abc" "def" "/foo"
      (by decide) (by decide) (by decide) (by decide)).2.1 (by decide),
   (c4_route_fallbacks genDefault ⟨[], []⟩ [] "PATCH" "abc" "def" "/foo"
      (by decide) (by decide) (by decide) (by decide)).2.2.1 (by decide),
   (c4_route_fallbacks genDefault ⟨[], []⟩ [] "PATCH" "abc" "def" "/foo"
      (by decide) (by decide) (by decide) (by decide)).2.2.2.2.2.2 (by decide) (by decide) (by decide)⟩

/-- C3 witness: the amended theorem at concrete inputs — a colliding
caller-chosen sublink id against a stored sublink fails 409, and a
validated list has distinct ids. -/
theorem c3_amended_witness :
    create_sublink "lnk-1"
      [("id", JVal.str "a"), ("name", JVal.str "n2"), ("url", JVal.str "http://z")]
      genDefault.sub
      ⟨[[("link_id", JVal.str "lnk-1"), ("name", JVal.str "L"),
         ("url", JVal.str "https://x.org"),
         ("sublinks", JVal.arr [JVal.obj [("id", JVal.str "a"), ("name", JVal.str "n"),
           ("url", JVal.str "http://x")]])]], []⟩
      = Except.error ⟨409, "Sublink already exists"⟩
    ∧ (sublink_ids [mkSublinkObj "a" "n" "http://x" none, mkSublinkObj "b" "m" "http://y" none]).Nodup :=
  ⟨c3_amended.2 "lnk-1" "a" "n2" "http://z" genDefault.sub _ _ rfl rfl rfl rfl
     ⟨mkSublinkObj "a" "n" "http://x" none, List.Mem.head _, rfl⟩,
   c3_amended.1 (JVal.arr
      [JVal.obj [("id", JVal.str "a"), ("name", JVal.str "n"), ("url", JVal.str "http://x")],
       JVal.obj [("id", JVal.str "b"), ("name", JVal.str "m"), ("url", JVal.str "http://y")]])
     genDefault.sub _ rfl⟩

/-! ### C5 and C6 -/

theorem pyGet_eq_str_lookup (o : Obj) (k s : String) (h : pyGet o k = JVal.str s) :
    o.lookup k = some (JVal.str s) := by
  unfold pyGet at h
  cases hl : o.lookup k with
  | none => rw [hl] at h; cases h
  | some v => rw [hl] at h; exact congrArg some h

theorem category_has_links_true (links : List Obj) (category_id : String)
    (h : ∃ link ∈ links, references_category link category_id) :
    category_has_links links category_id = true := by
  obtain ⟨link, hmem, href⟩ := h
  refine List.any_eq_true.mpr ⟨link, hmem, ?_⟩
  rcases href with ⟨elems, harr, helem⟩ | hleg
  · rw [Bool.or_eq_true]
    left
    rw [harr]
    exact List.any_eq_true.mpr ⟨JVal.str category_id, helem, by simp⟩
  · rw [Bool.or_eq_true]
    right
    rw [pyGet_eq_str_lookup _ _ _ hleg]
    simp

theorem category_has_links_false (links : List Obj) (category_id : String)
    (hwf : ∀ link ∈ links, (∃ elems, pyGet link "category_ids" = JVal.arr elems)
      ∨ pyGet link "category_ids" = JVal.null)
    (h : ∀ link ∈ links, ¬ references_category link category_id) :
    category_has_links links category_id = false := by
  apply List.any_eq_false.mpr
  intro link hmem
  rw [Bool.not_eq_true]
  apply Bool.or_eq_false_iff.mpr
  constructor
  · rcases hwf link hmem with ⟨elems, harr⟩ | hnull
    · rw [harr]
      apply List.any_eq_false.mpr
      intro e he
      rw [Bool.not_eq_true]
      cases e with
      | str s =>
        have hne : s ≠ category_id := by
          intro hs
          exact h link hmem (Or.inl ⟨elems, harr, hs ▸ he⟩)
        simpa using hne
      | null => rfl
      | bool b => rfl
      | num n => rfl
      | arr l => rfl
      | obj o => rfl
    · rw [hnull]
      rfl
  · cases hlook : link.lookup "category_id" with
    | none => rfl
    | some v =>
      cases v with
      | str s =>
        have hne : s ≠ category_id := by
          intro hs
          refine h link hmem (Or.inr ?_)
          unfold pyGet
          rw [hlook, hs]
        simpa using hne
      | null => rfl
      | bool b => rfl
      | num n => rfl
      | arr l => rfl
      | obj o => rfl

/-- C5: deleting a category first scans the links; when any stored link
references the id through the modern `category_ids` list or the legacy
`category_id` attribute the delete fails Conflict (409) and the store is
unchanged; otherwise (for stores whose `category_ids` attributes are
lists or absent) the delete is conditional on existence — NotFound (404)
when the category is absent, 204 and removal of the record on success. -/
theorem c5_delete_category (category_id : String) (st : Store) :
    ((∃ link ∈ st.links, references_category link category_id) →
      run (delete_category category_id) st
        = (response 409 (some (JVal.obj
            [("message", JVal.str "Category cannot be deleted while links reference it")])), st))
    ∧ ((∀ link ∈ st.links, (∃ elems, pyGet link "category_ids" = JVal.arr elems)
          ∨ pyGet link "category_ids" = JVal.null) →
       (∀ link ∈ st.links, ¬ references_category link category_id) →
       (getItemByKey st.categories "category_id" category_id = none →
          run (delete_category category_id) st
            = (response 404 (some (JVal.obj [("message", JVal.str "Category not found")])), st))
       ∧ (∀ item, getItemByKey st.categories "category_id" category_id = some item →
          run (delete_category category_id) st
            = (response 204 none,
               { st with categories :=
                  st.categories.filter (fun o => !(keyIs o "category_id" category_id)) }))) := by
  constructor
  · intro href
    have hl := category_has_links_true st.links category_id href
    simp [run, delete_category, hl, response]
  · intro hwf hno
    have hl := category_has_links_false st.links category_id hwf hno
    constructor
    · intro hnone
      simp [run, delete_category, hl, deleteIfExists, hnone, response]
    · intro item hsome
      simp [run, delete_category, hl, deleteIfExists, hsome, response]

def sampleCat : Obj := [("category_id", JVal.str "cat-1"), ("name", JVal.str "Reading")]

def sampleLink : Obj :=
  [("link_id", JVal.str "lnk-1"), ("name", JVal.str "Example"),
   ("url", JVal.str "https://x.org"), ("category_id", JVal.str "cat-1"),
   ("category_ids", JVal.arr [JVal.str "cat-1"])]

/-- C5 witness: the theorem at a store with one referencing link (409,
unchanged), at one with no links (204), and at a missing id (404). -/
theorem c5_delete_category_witness :
    run (delete_category "cat-1") ⟨[sampleLink], [sampleCat]⟩
      = (response 409 (some (JVal.obj
          [("message", JVal.str "Category cannot be deleted while links reference it")])),
         ⟨[sampleLink], [sampleCat]⟩)
    ∧ run (delete_category "cat-1") ⟨[], [sampleCat]⟩ = (response 204 none, ⟨[], []⟩)
    ∧ run (delete_category "cat-2") ⟨[], [sampleCat]⟩
      = (response 404 (some (JVal.obj [("message", JVal.str "Category not found")])),
         ⟨[], [sampleCat]⟩) :=
  ⟨(c5_delete_category "cat-1" ⟨[sampleLink], [sampleCat]⟩).1
      ⟨sampleLink, List.Mem.head _, Or.inr rfl⟩,
   ((c5_delete_category "cat-1" ⟨[], [sampleCat]⟩).2
      (fun _link hmem => absurd hmem (List.not_mem_nil _))
      (fun _link hmem => absurd hmem (List.not_mem_nil _))).2 sampleCat rfl,
   ((c5_delete_category "cat-2" ⟨[], [sampleCat]⟩).2
      (fun _link hmem => absurd hmem (List.not_mem_nil _))
      (fun _link hmem => absurd hmem (List.not_mem_nil _))).1 rfl⟩

theorem except_error_bind {ε α β : Type} (e : ε) (f : α → Except ε β) :
    (Except.error (α := α) e >>= f) = Except.error e := rfl

theorem assert_categories_exist_ok (categories : List Obj) (l : List String)
    (h : ∀ id ∈ l, (getItemByKey categories "category_id" id).isSome = true) :
    assert_categories_exist categories l = Except.ok () := by
  induction l with
  | nil => rfl
  | cons x rest ih =>
    simp only [assert_categories_exist, assert_category_exists,
      h x (List.mem_cons_self _ _), if_true, except_ok_bind]
    exact ih (fun id hm => h id (List.mem_cons_of_mem _ hm))

theorem assert_categories_exist_first_missing (categories : List Obj)
    (pre : List String) (missing : String) (post : List String)
    (hpre : ∀ id ∈ pre, (getItemByKey categories "category_id" id).isSome = true)
    (hmiss : getItemByKey categories "category_id" missing = none) :
    assert_categories_exist categories (pre ++ missing :: post)
      = Except.error ⟨400, "categoryId must reference an existing category"⟩ := by
  induction pre with
  | nil =>
    simp only [List.nil_append, assert_categories_exist, assert_category_exists, hmiss]
    rfl
  | cons x rest ih =>
    simp only [List.cons_append, assert_categories_exist, assert_category_exists,
      hpre x (List.mem_cons_self _ _), if_true, except_ok_bind]
    exact ih (fun id hm => hpre id (List.mem_cons_of_mem _ hm))

/-- C6: a link-create request whose sanitized category list has all
references before some `missing` id present but `missing` absent fails
with BadRequest (400, "categoryId must reference an existing category")
at that first missing reference, and the wrapped handler leaves the
store unchanged — no link record is written. -/
theorem c6_create_link_dangling_reference (event_body : Obj) (link_id : String)
    (gen_sub : Nat → String) (st : Store) (nm u missing : String)
    (ids pre post : List String)
    (hname : validate_string (pyGet event_body "name") "name" 128 = Except.ok nm)
    (hurl : validate_url (pyGet event_body "url") "url" = Except.ok u)
    (hkey : hasKey event_body "categoryIds" = true)
    (hsan : sanitize_category_ids (pyGet event_body "categoryIds") "categoryIds"
      = Except.ok ids)
    (hids : ids = pre ++ missing :: post)
    (hpre : ∀ id ∈ pre, (getItemByKey st.categories "category_id" id).isSome = true)
    (hmiss : getItemByKey st.categories "category_id" missing = none) :
    create_link event_body link_id gen_sub st
      = Except.error ⟨400, "categoryId must reference an existing category"⟩
    ∧ run (create_link event_body link_id gen_sub) st
      = (response 400 (some (JVal.obj
          [("message", JVal.str "categoryId must reference an existing category")])), st) := by
  have hassert := assert_categories_exist_first_missing st.categories pre missing post hpre hmiss
  rw [← hids] at hassert
  have hmain : create_link event_body link_id gen_sub st
      = Except.error ⟨400, "categoryId must reference an existing category"⟩ := by
    simp only [create_link, hname, hurl, except_ok_bind,
      extract_category_ids_from_body, hkey, if_true, hsan, hassert,
      except_error_bind]
  exact ⟨hmain, by rw [run, hmain]⟩

/-- C6 witness: the theorem at a concrete body referencing
`cat-missing`. -/
theorem c6_create_link_dangling_reference_witness :
    create_link
      [("name", JVal.str "Bad"), ("url", JVal.str "https://invalid.example"),
       ("categoryIds", JVal.arr [JVal.str "cat-missing"])]
      "lnk-9" genDefault.sub ⟨[], [sampleCat]⟩
      = Except.error ⟨400, "categoryId must reference an existing category"⟩
    ∧ run (create_link
        [("name", JVal.str "Bad"), ("url", JVal.str "https://invalid.example"),
         ("categoryIds", JVal.arr [JVal.str "cat-missing"])]
        "lnk-9" genDefault.sub) ⟨[], [sampleCat]⟩
      = (response 400 (some (JVal.obj
          [("message", JVal.str "categoryId must reference an existing category")])),
         ⟨[], [sampleCat]⟩) :=
  c6_create_link_dangling_reference
    [("name", JVal.str "Bad"), ("url", JVal.str "https://invalid.example"),
     ("categoryIds", JVal.arr [JVal.str "cat-missing"])]
    "lnk-9" genDefault.sub ⟨[], [sampleCat]⟩ "Bad" "https://invalid.example" "cat-missing"
    ["cat-missing"] [] [] rfl rfl rfl rfl rfl
    (fun _id hm => absurd hm (List.not_mem_nil _)) rfl

/-! ### C7 -/

theorem dedupFrom_congr (xs : List String) :
    ∀ s₁ s₂, (∀ y, y ∈ s₁ ↔ y ∈ s₂) → dedupFrom s₁ xs = dedupFrom s₂ xs := by
  induction xs with
  | nil => intro s₁ s₂ h; rfl
  | cons x rest ih =>
    intro s₁ s₂ h
    simp only [dedupFrom]
    by_cases hx : x ∈ s₁
    · rw [if_pos hx, if_pos ((h x).mp hx), ih s₁ s₂ h]
    · rw [if_neg hx, if_neg (fun hc => hx ((h x).mpr hc))]
      rw [ih (x :: s₁) (x :: s₂) (fun y => by simp [h y])]

theorem mem_dedupFrom (xs : List String) :
    ∀ seen y, y ∈ dedupFrom seen xs ↔ y ∈ xs ∧ y ∉ seen := by
  induction xs with
  | nil => intro seen y; simp [dedupFrom]
  | cons x rest ih =>
    intro seen y
    simp only [dedupFrom]
    by_cases hx : x ∈ seen
    · rw [if_pos hx, ih]
      constructor
      · rintro ⟨h1, h2⟩; exact ⟨List.mem_cons_of_mem _ h1, h2⟩
      · rintro ⟨h1, h2⟩
        rcases List.mem_cons.mp h1 with h1 | h1
        · exact absurd (h1 ▸ hx) h2
        · exact ⟨h1, h2⟩
    · rw [if_neg hx]
      constructor
      · intro hm
        rcases List.mem_cons.mp hm with h1 | h1
        · exact ⟨h1 ▸ List.mem_cons_self _ _, h1 ▸ hx⟩
        · obtain ⟨hy1, hy2⟩ := (ih _ _).mp h1
          exact ⟨List.mem_cons_of_mem _ hy1,
            fun hs => hy2 (List.mem_cons_of_mem _ hs)⟩
      · rintro ⟨h1, h2⟩
        rcases List.mem_cons.mp h1 with h1 | h1
        · exact h1 ▸ List.mem_cons_self _ _
        · by_cases hxy : y = x
          · exact hxy ▸ List.mem_cons_self _ _
          · exact List.mem_cons_of_mem _ ((ih _ _).mpr
              ⟨h1, fun hs => (List.mem_cons.mp hs).elim hxy h2⟩)

theorem nodup_dedupFrom (xs : List String) :
    ∀ seen, (dedupFrom seen xs).Nodup := by
  induction xs with
  | nil => intro seen; simp [dedupFrom]
  | cons x rest ih =>
    intro seen
    simp only [dedupFrom]
    by_cases hx : x ∈ seen
    · rw [if_pos hx]; exact ih seen
    · rw [if_neg hx]
      refine List.nodup_cons.mpr ⟨fun hm => ?_, ih _⟩
      exact ((mem_dedupFrom rest _ x).mp hm).2 (List.mem_cons_self _ _)

theorem dedupFrom_self (xs : List String) :
    ∀ seen, xs.Nodup → (∀ x ∈ xs, x ∉ seen) → dedupFrom seen xs = xs := by
  induction xs with
  | nil => intro seen _ _; rfl
  | cons x rest ih =>
    intro seen hnodup hdisj
    simp only [dedupFrom]
    rw [if_neg (hdisj x (List.mem_cons_self _ _))]
    congr 1
    refine ih _ (List.nodup_cons.mp hnodup).2 ?_
    intro y hy hs
    rcases List.mem_cons.mp hs with h1 | h1
    · exact (List.nodup_cons.mp hnodup).1 (h1 ▸ hy)
    · exact hdisj y (List.mem_cons_of_mem _ hy) h1

theorem dedupFirstSeen_idem (xs : List String) :
    dedupFirstSeen (dedupFirstSeen xs) = dedupFirstSeen xs :=
  dedupFrom_self _ _ (nodup_dedupFrom xs []) (fun _ _ hs => (List.not_mem_nil _) hs)

theorem dedupFirstSeen_ne_nil (x : String) (rest : List String) :
    dedupFirstSeen (x :: rest) ≠ [] := by
  simp only [dedupFirstSeen, dedupFrom, List.not_mem_nil, if_false]
  exact List.cons_ne_nil _ _

theorem mem_dedupFirstSeen (xs : List String) (y : String) :
    y ∈ dedupFirstSeen xs ↔ y ∈ xs := by
  rw [dedupFirstSeen, mem_dedupFrom]
  simp

theorem serialize_fold_eq (ids : List String) :
    (∀ i ∈ ids, pyStrip i = i ∧ i ≠ "") → ∀ acc,
    (ids.map JVal.str).foldl (fun acc candidate =>
      match candidate with
      | JVal.str s =>
        let trimmed := pyStrip s
        if trimmed ≠ "" ∧ trimmed ∉ acc then acc ++ [trimmed] else acc
      | _ => acc) acc
    = acc ++ dedupFrom acc ids := by
  induction ids with
  | nil => intro _ acc; simp [dedupFrom]
  | cons i rest ih =>
    intro h acc
    obtain ⟨hstrip, hne⟩ := h i (List.mem_cons_self _ _)
    have hrest := fun j hj => h j (List.mem_cons_of_mem _ hj)
    simp only [List.map_cons, List.foldl_cons, hstrip, dedupFrom]
    by_cases hx : i ∈ acc
    · rw [if_neg (fun hand => hand.2 hx), if_pos hx]
      exact ih hrest acc
    · rw [if_pos ⟨hne, hx⟩, if_neg hx, ih hrest (acc ++ [i])]
      rw [dedupFrom_congr rest (acc ++ [i]) (i :: acc) (fun y => by simp [or_comm])]
      simp

theorem sanitize_aux_map_str (raw : List String) :
    (∀ x ∈ raw, pyStrip x = x ∧ x ≠ "" ∧ x.length ≤ 64) →
    ∀ (field : String) (is_list : Bool) (index : Nat) (seen : List String),
    sanitize_category_ids_aux field is_list (raw.map JVal.str) index seen
      = Except.ok (dedupFrom seen raw) := by
  induction raw with
  | nil => intro _ field is_list index seen; rfl
  | cons x rest ih =>
    intro h field is_list index seen
    obtain ⟨hstrip, hne, hlen⟩ := h x (List.mem_cons_self _ _)
    have hrest := fun j hj => h j (List.mem_cons_of_mem _ hj)
    have hval : ∀ label, validate_string (JVal.str x) label 64 = Except.ok x := by
      intro label
      rw [validate_string_ok x label 64 (by rw [hstrip]; exact hne) (by rw [hstrip]; exact hlen), hstrip]
    simp only [List.map_cons, sanitize_category_ids_aux, hval, except_ok_bind, dedupFrom]
    by_cases hx : x ∈ seen
    · rw [if_pos hx, if_pos hx]
      exact ih hrest field is_list (index + 1) seen
    · rw [if_neg hx, if_neg hx, ih hrest field is_list (index + 1) (x :: seen)]
      rfl

theorem sanitize_map_str_ok (x : String) (rest : List String)
    (h : ∀ i ∈ x :: rest, pyStrip i = i ∧ i ≠ "" ∧ i.length ≤ 64) (field : String) :
    sanitize_category_ids (JVal.arr ((x :: rest).map JVal.str)) field
      = Except.ok (dedupFirstSeen (x :: rest)) := by
  simp only [sanitize_category_ids, sanitize_from, sanitize_aux_map_str (x :: rest) h field true 0 [],
    except_ok_bind]
  rw [show dedupFrom ([] : List String) (x :: rest) = dedupFirstSeen (x :: rest) from rfl,
    if_neg (dedupFirstSeen_ne_nil x rest)]

theorem serialize_category_ids_spec (item : Obj) (ids : List String)
    (harr : pyGet item "category_ids" = JVal.arr (ids.map JVal.str))
    (hids : ∀ i ∈ ids, pyStrip i = i ∧ i ≠ "") :
    (pyGet item "category_id" = JVal.null →
      serialize_category_ids item = spec_category_ids ids none)
    ∧ (∀ c, pyGet item "category_id" = JVal.str c → pyStrip c = c → c ≠ "" →
      serialize_category_ids item = spec_category_ids ids (some c)) := by
  have hfold := serialize_fold_eq ids hids []
  rw [List.nil_append] at hfold
  constructor
  · intro hnull
    simp only [serialize_category_ids, harr, hfold, hnull, spec_category_ids, dedupFirstSeen]
  · intro c hstr hstrip hne
    simp only [serialize_category_ids, harr, hfold, hstr, hstrip, spec_category_ids,
      dedupFirstSeen]
    by_cases hc : c ∈ dedupFrom [] ids
    · rw [if_neg (fun hand => hand.2 hc), if_pos hc]
    · rw [if_pos ⟨hne, hc⟩, if_neg hc]

theorem serialize_lookup_category_fields (item : Obj) :
    (serialize item).lookup "categoryIds"
      = some (JVal.arr ((serialize_category_ids item).map JVal.str))
    ∧ (serialize item).lookup "categoryId"
      = (match serialize_category_ids item with
         | [] => none
         | first :: _ => some (JVal.str first)) := by
  cases hc : serialize_category_ids item with
  | nil =>
    cases hd : item.lookup "description" with
    | none => simp [serialize, hc, hd, List.lookup]
    | some v => simp [serialize, hc, hd, List.lookup]
  | cons first rest =>
    cases hd : item.lookup "description" with
    | none => simp [serialize, hc, hd, List.lookup]
    | some v => simp [serialize, hc, hd, List.lookup]

/-- The item `_create_link` writes for a body with `name`, `url` and
`categoryIds` only, once the category list has been sanitized. -/
def created_link_item (link_id nm u : String) (ids : List String) : Obj :=
  [("link_id", JVal.str link_id), ("name", JVal.str nm), ("url", JVal.str u),
   ("category_id", JVal.str (ids.headD "")),
   ("category_ids", JVal.arr (ids.map JVal.str))]

theorem create_link_ok (link_id nm u : String) (raw : List String) (st : Store)
    (gen_sub : Nat → String)
    (hraw_ne : raw ≠ [])
    (hraw : ∀ x ∈ raw, pyStrip x = x ∧ x ≠ "" ∧ x.length ≤ 64)
    (hname : validate_string (JVal.str nm) "name" 128 = Except.ok nm)
    (hurl : validate_url (JVal.str u) "url" = Except.ok u)
    (hexists : ∀ x ∈ raw, (getItemByKey st.categories "category_id" x).isSome = true)
    (hfresh : getItemByKey st.links "link_id" link_id = none) :
    create_link
      [("name", JVal.str nm), ("url", JVal.str u),
       ("categoryIds", JVal.arr (raw.map JVal.str))]
      link_id gen_sub st
    = Except.ok
       (response 201 (some (JVal.obj [("link",
          JVal.obj (serialize (created_link_item link_id nm u (dedupFirstSeen raw))))])),
        { st with links := st.links ++ [created_link_item link_id nm u (dedupFirstSeen raw)] }) := by
  obtain ⟨x, rest, rfl⟩ : ∃ x rest, raw = x :: rest := by
    cases raw with
    | nil => exact absurd rfl hraw_ne
    | cons x rest => exact ⟨x, rest, rfl⟩
  have hsan := sanitize_map_str_ok x rest hraw "categoryIds"
  have hassert : assert_categories_exist st.categories (dedupFirstSeen (x :: rest))
      = Except.ok () :=
    assert_categories_exist_ok st.categories _
      (fun id hm => hexists id ((mem_dedupFirstSeen _ _).mp hm))
  have hput : putIfAbsent st.links "link_id" link_id
      (created_link_item link_id nm u (dedupFirstSeen (x :: rest))) = some
      (st.links ++ [created_link_item link_id nm u (dedupFirstSeen (x :: rest))]) := by
    simp [putIfAbsent, hfresh]
  simp only [create_link,
    show pyGet [("name", JVal.str nm), ("url", JVal.str u),
      ("categoryIds", JVal.arr ((x :: rest).map JVal.str))] "name" = JVal.str nm from rfl,
    show pyGet [("name", JVal.str nm), ("url", JVal.str u),
      ("categoryIds", JVal.arr ((x :: rest).map JVal.str))] "url" = JVal.str u from rfl,
    show pyGet [("name", JVal.str nm), ("url", JVal.str u),
      ("categoryIds", JVal.arr ((x :: rest).map JVal.str))] "categoryIds"
      = JVal.arr ((x :: rest).map JVal.str) from rfl,
    show pyGet [("name", JVal.str nm), ("url", JVal.str u),
      ("categoryIds", JVal.arr ((x :: rest).map JVal.str))] "description" = JVal.null from rfl,
    show pyGet [("name", JVal.str nm), ("url", JVal.str u),
      ("categoryIds", JVal.arr ((x :: rest).map JVal.str))] "sublinks" = JVal.null from rfl,
    show hasKey [("name", JVal.str nm), ("url", JVal.str u),
      ("categoryIds", JVal.arr ((x :: rest).map JVal.str))] "categoryIds" = true from rfl,
    hname, hurl, except_ok_bind, extract_category_ids_from_body, if_true, hsan, hassert,
    validate_description]
  simp only [show (if ([] : List Obj).isEmpty = true then ([] : List (String × JVal))
      else [("sublinks", JVal.arr (List.map JVal.obj ([] : List Obj)))]) = [] from rfl,
    List.append_nil]
  cases hp : putIfAbsent st.links "link_id" link_id
      [("link_id", JVal.str link_id), ("name", JVal.str nm), ("url", JVal.str u),
       ("category_id", JVal.str ((dedupFirstSeen (x :: rest)).headD "")),
       ("category_ids", JVal.arr (List.map JVal.str (dedupFirstSeen (x :: rest))))] with
  | none =>
    simp [putIfAbsent, hfresh] at hp
  | some links2 =>
    simp only [putIfAbsent, hfresh, Option.isSome_none, Bool.false_eq_true, if_false,
      Option.some.injEq] at hp
    rw [← hp]
    rfl

theorem serialize_created_item_ids (link_id nm u x : String) (rest : List String)
    (hraw : ∀ i ∈ x :: rest, pyStrip i = i ∧ i ≠ "") :
    serialize_category_ids (created_link_item link_id nm u (dedupFirstSeen (x :: rest)))
      = dedupFirstSeen (x :: rest) := by
  have hcons : dedupFirstSeen (x :: rest) = x :: dedupFrom [x] rest := by
    simp [dedupFirstSeen, dedupFrom]
  have hdids : ∀ i ∈ dedupFirstSeen (x :: rest), pyStrip i = i ∧ i ≠ "" :=
    fun i hm => hraw i ((mem_dedupFirstSeen _ _).mp hm)
  have hx := hraw x (List.mem_cons_self _ _)
  have hhead : (dedupFirstSeen (x :: rest)).headD "" = x := by rw [hcons]; rfl
  have hspec := (serialize_category_ids_spec
      (created_link_item link_id nm u (dedupFirstSeen (x :: rest)))
      (dedupFirstSeen (x :: rest)) rfl hdids).2
      ((dedupFirstSeen (x :: rest)).headD "") rfl
      (by rw [hhead]; exact hx.1) (by rw [hhead]; exact hx.2)
  rw [hspec, spec_category_ids, dedupFirstSeen_idem]
  rw [if_pos (by rw [hhead, hcons]; exact List.mem_cons_self _ _)]

/-- C7: (i) on a stored record whose modern `category_ids` attribute is a
list of trimmed non-blank strings, the serialized `categoryIds` equals the
spec computation `spec_category_ids` — first-seen-order deduplication of
the modern list with the legacy singular id prepended when present and
not already contained; (ii) serialization always carries `categoryIds`,
and `categoryId` is present exactly when `categoryIds` is non-empty,
equal to its first element; (iii) a link created from a valid
`{name, url, categoryIds}` body stores and serializes the deduplicated
input order, with `categoryId` its first element. -/
theorem c7_link_serialization :
    (∀ (item : Obj) (ids : List String),
        pyGet item "category_ids" = JVal.arr (ids.map JVal.str) →
        (∀ i ∈ ids, pyStrip i = i ∧ i ≠ "") →
        (pyGet item "category_id" = JVal.null →
          serialize_category_ids item = spec_category_ids ids none)
        ∧ (∀ c, pyGet item "category_id" = JVal.str c → pyStrip c = c → c ≠ "" →
          serialize_category_ids item = spec_category_ids ids (some c)))
    ∧ (∀ item : Obj,
        (serialize item).lookup "categoryIds"
          = some (JVal.arr ((serialize_category_ids item).map JVal.str))
        ∧ (serialize item).lookup "categoryId"
          = (match serialize_category_ids item with
             | [] => none
             | first :: _ => some (JVal.str first)))
    ∧ (∀ (link_id nm u : String) (raw : List String) (st : Store) (gen_sub : Nat → String),
        raw ≠ [] →
        (∀ i ∈ raw, pyStrip i = i ∧ i ≠ "" ∧ i.length ≤ 64) →
        validate_string (JVal.str nm) "name" 128 = Except.ok nm →
        validate_url (JVal.str u) "url" = Except.ok u →
        (∀ i ∈ raw, (getItemByKey st.categories "category_id" i).isSome = true) →
        getItemByKey st.links "link_id" link_id = none →
        create_link
          [("name", JVal.str nm), ("url", JVal.str u),
           ("categoryIds", JVal.arr (raw.map JVal.str))]
          link_id gen_sub st
          = Except.ok
            (response 201 (some (JVal.obj [("link",
              JVal.obj (serialize (created_link_item link_id nm u (dedupFirstSeen raw))))])),
             { st with links := st.links ++ [created_link_item link_id nm u (dedupFirstSeen raw)] })
        ∧ (serialize (created_link_item link_id nm u (dedupFirstSeen raw))).lookup "categoryIds"
          = some (JVal.arr ((dedupFirstSeen raw).map JVal.str))
        ∧ (serialize (created_link_item link_id nm u (dedupFirstSeen raw))).lookup "categoryId"
          = some (JVal.str ((dedupFirstSeen raw).headD ""))) := by
  refine ⟨serialize_category_ids_spec, serialize_lookup_category_fields, ?_⟩
  intro link_id nm u raw st gen_sub hraw_ne hraw hname hurl hexists hfresh
  obtain ⟨x, rest, rfl⟩ : ∃ x rest, raw = x :: rest := by
    cases raw with
    | nil => exact absurd rfl hraw_ne
    | cons x rest => exact ⟨x, rest, rfl⟩
  have hids := serialize_created_item_ids link_id nm u x rest
    (fun i hm => ⟨(hraw i hm).1, (hraw i hm).2.1⟩)
  have hcons : dedupFirstSeen (x :: rest) = x :: dedupFrom [x] rest := by
    simp [dedupFirstSeen, dedupFrom]
  have hlook := serialize_lookup_category_fields
    (created_link_item link_id nm u (dedupFirstSeen (x :: rest)))
  refine ⟨create_link_ok link_id nm u (x :: rest) st gen_sub hraw_ne hraw hname hurl
      hexists hfresh, ?_, ?_⟩
  · rw [hlook.1, hids]
  · rw [hlook.2, hids, hcons]
    rfl

def sampleCat2 : Obj := [("category_id", JVal.str "cat-2"), ("name", JVal.str "Work")]

/-- C7 witness: part (iii) at the duplicated input
`["cat-1", "cat-2", "cat-1"]`. -/
theorem c7_link_serialization_witness :
    create_link
      [("name", JVal.str "Ex"), ("url", JVal.str "https://x.org"),
       ("categoryIds", JVal.arr [JVal.str "cat-1", JVal.str "cat-2", JVal.str "cat-1"])]
      "lnk-9" genDefault.sub ⟨[], [sampleCat, sampleCat2]⟩
      = Except.ok
        (response 201 (some (JVal.obj [("link",
          JVal.obj (serialize (created_link_item "lnk-9" "Ex" "https://x.org"
            ["cat-1", "cat-2"])))])),
         ⟨[created_link_item "lnk-9" "Ex" "https://x.org" ["cat-1", "cat-2"]],
          [sampleCat, sampleCat2]⟩)
    ∧ (serialize (created_link_item "lnk-9" "Ex" "https://x.org" ["cat-1", "cat-2"])).lookup
        "categoryIds" = some (JVal.arr [JVal.str "cat-1", JVal.str "cat-2"])
    ∧ (serialize (created_link_item "lnk-9" "Ex" "https://x.org" ["cat-1", "cat-2"])).lookup
        "categoryId" = some (JVal.str "cat-1") :=
  c7_link_serialization.2.2 "lnk-9" "Ex" "https://x.org" ["cat-1", "cat-2", "cat-1"]
    ⟨[], [sampleCat, sampleCat2]⟩ genDefault.sub (by decide) (by decide) rfl rfl
    (by decide) rfl

/-! ### C8 -/

theorem lookup_removeAttr (o : Obj) (k k' : String) :
    (removeAttr o k).lookup k' = if k' = k then none else o.lookup k' := by
  induction o with
  | nil => simp [removeAttr]
  | cons p rest ih =>
    obtain ⟨a, v⟩ := p
    by_cases hak : a = k
    · subst hak
      have h1 : removeAttr ((a, v) :: rest) a = removeAttr rest a := by
        simp [removeAttr, List.filter_cons]
      rw [h1, ih]
      by_cases hk : k' = a
      · simp [hk]
      · simp [hk, List.lookup_cons, beq_eq_false_iff_ne.mpr hk]
    · have h1 : removeAttr ((a, v) :: rest) k = (a, v) :: removeAttr rest k := by
        simp [removeAttr, List.filter_cons, hak]
      rw [h1]
      by_cases hka : k' = a
      · subst hka
        simp [List.lookup_cons, hak]
      · simp [List.lookup_cons, beq_eq_false_iff_ne.mpr hka, ih]

theorem serialize_lookup_description (item : Obj) :
    (serialize item).lookup "description" = item.lookup "description" := by
  cases hc : serialize_category_ids item with
  | nil =>
    cases hd : item.lookup "description" with
    | none => simp [serialize, hc, hd, List.lookup]
    | some v => simp [serialize, hc, hd, List.lookup]
  | cons first rest =>
    cases hd : item.lookup "description" with
    | none => simp [serialize, hc, hd, List.lookup]
    | some v => simp [serialize, hc, hd, List.lookup]

theorem serialize_category_lookup_description (item : Obj) :
    (serialize_category item).lookup "description" = item.lookup "description" := by
  cases hd : item.lookup "description" with
  | none => simp [serialize_category, hd, List.lookup]
  | some v => simp [serialize_category, hd, List.lookup]

/-- C8: updating a link or a category with an empty body fails 400;
updating with `{"description": null}` removes the stored description
attribute — the updated record is the old one minus `description`, every
other attribute reads unchanged, and `description` is absent from the
subsequent serialization. -/
theorem c8_update_empty_and_description_null :
    (∀ (link_id : String) (gen_sub : Nat → String) (st : Store),
       update_link link_id [] gen_sub st
         = Except.error ⟨400, "Request body must contain at least one field to update"⟩)
    ∧ (∀ (category_id : String) (st : Store),
       update_category category_id [] st
         = Except.error ⟨400, "Request body must contain at least one field to update"⟩)
    ∧ (∀ (link_id : String) (gen_sub : Nat → String) (st : Store) (item : Obj),
        getItemByKey st.links "link_id" link_id = some item →
        update_link link_id [("description", JVal.null)] gen_sub st
          = Except.ok
            (response 200 (some (JVal.obj [("link",
               JVal.obj (serialize (removeAttr item "description")))])),
             { st with links := st.links.map (fun o =>
                 if keyIs o "link_id" link_id then removeAttr item "description" else o) })
        ∧ (serialize (removeAttr item "description")).lookup "description" = none
        ∧ ∀ k, k ≠ "description" → (removeAttr item "description").lookup k = item.lookup k)
    ∧ (∀ (category_id : String) (st : Store) (item : Obj),
        getItemByKey st.categories "category_id" category_id = some item →
        update_category category_id [("description", JVal.null)] st
          = Except.ok
            (response 200 (some (JVal.obj [("category",
               JVal.obj (serialize_category (removeAttr item "description")))])),
             { st with categories := st.categories.map (fun o =>
                 if keyIs o "category_id" category_id then removeAttr item "description" else o) })
        ∧ (serialize_category (removeAttr item "description")).lookup "description" = none
        ∧ ∀ k, k ≠ "description" → (removeAttr item "description").lookup k = item.lookup k) := by
  refine ⟨fun link_id gen_sub st => rfl, fun category_id st => rfl, ?_, ?_⟩
  · intro link_id gen_sub st item hitem
    refine ⟨?_, ?_, ?_⟩
    · have hbuild : build_link_update [("description", JVal.null)] st.categories gen_sub
          = Except.ok ([], ["description"]) := rfl
      simp only [update_link, hbuild, except_ok_bind]
      rw [if_neg (by decide), if_neg (by decide)]
      simp only [updateIfExists, hitem]
      rfl
    · rw [serialize_lookup_description, lookup_removeAttr]
      simp
    · intro k hk
      rw [lookup_removeAttr, if_neg hk]
  · intro category_id st item hitem
    refine ⟨?_, ?_, ?_⟩
    · have hbuild : build_category_update [("description", JVal.null)]
          = Except.ok ([], ["description"]) := rfl
      simp only [update_category, hbuild, except_ok_bind]
      rw [if_neg (by decide), if_neg (by decide)]
      simp only [updateIfExists, hitem]
      rfl
    · rw [serialize_category_lookup_description, lookup_removeAttr]
      simp
    · intro k hk
      rw [lookup_removeAttr, if_neg hk]

def sampleLinkD : Obj := sampleLink ++ [("description", JVal.str "old")]

/-- C8 witness: the theorem at a stored link carrying a description and at
a stored category. -/
theorem c8_update_empty_and_description_null_witness :
    update_link "lnk-1" [] genDefault.sub ⟨[sampleLinkD], [sampleCat]⟩
      = Except.error ⟨400, "Request body must contain at least one field to update"⟩
    ∧ update_link "lnk-1" [("description", JVal.null)] genDefault.sub
        ⟨[sampleLinkD], [sampleCat]⟩
      = Except.ok
        (response 200 (some (JVal.obj [("link",
           JVal.obj (serialize (removeAttr sampleLinkD "description")))])),
         ⟨[removeAttr sampleLinkD "description"], [sampleCat]⟩)
    ∧ (serialize (removeAttr sampleLinkD "description")).lookup "description" = none
    ∧ update_category "cat-1" [("description", JVal.null)] ⟨[], [sampleCat]⟩
      = Except.ok
        (response 200 (some (JVal.obj [("category",
           JVal.obj (serialize_category (removeAttr sampleCat "description")))])),
         ⟨[], [removeAttr sampleCat "description"]⟩) :=
  ⟨c8_update_empty_and_description_null.1 "lnk-1" genDefault.sub ⟨[sampleLinkD], [sampleCat]⟩,
   (c8_update_empty_and_description_null.2.2.1 "lnk-1" genDefault.sub
      ⟨[sampleLinkD], [sampleCat]⟩ sampleLinkD rfl).1,
   (c8_update_empty_and_description_null.2.2.1 "lnk-1" genDefault.sub
      ⟨[sampleLinkD], [sampleCat]⟩ sampleLinkD rfl).2.1,
   (c8_update_empty_and_description_null.2.2.2 "cat-1"
      ⟨[], [sampleCat]⟩ sampleCat rfl).1⟩

/-! ### C9 -/

/-- A well-formed embedded sublink: exactly the shape `_validate_sublinks`
and `_create_sublink` write to storage. -/
structure Sublink where
  id : String
  name : String
  url : String
  description : Option String

/-- The stored object of a well-formed sublink. -/
def Sublink.toObj (s : Sublink) : Obj := mkSublinkObj s.id s.name s.url s.description

theorem extract_entry_toObj (s : Sublink) :
    extract_sublink_entry (JVal.obj s.toObj) = some s.toObj := by
  obtain ⟨id, name, url, description⟩ := s
  cases description with
  | none => rfl
  | some d => rfl

theorem filterMap_extract_toObj (subs : List Sublink) :
    (subs.map (fun s => JVal.obj s.toObj)).filterMap extract_sublink_entry
      = subs.map Sublink.toObj := by
  induction subs with
  | nil => rfl
  | cons s rest ih =>
    simp only [List.map_cons, List.filterMap_cons, extract_entry_toObj]
    rw [ih]

theorem extract_sublinks_wf (item : Obj) (subs : List Sublink)
    (h : pyGet item "sublinks" = JVal.arr (subs.map (fun s => JVal.obj s.toObj))) :
    extract_sublinks item = subs.map Sublink.toObj := by
  simp only [extract_sublinks, h]
  exact filterMap_extract_toObj subs

theorem pyGet_toObj_id (s : Sublink) : pyGet s.toObj "id" = JVal.str s.id := by
  obtain ⟨id, name, url, description⟩ := s
  cases description with
  | none => rfl
  | some d => rfl

theorem filter_toObj (subs : List Sublink) (sid : String) :
    (subs.map Sublink.toObj).filter (fun entry =>
      match pyGet entry "id" with
      | JVal.str s => !(s == sid)
      | _ => true)
    = (subs.filter (fun s => !(s.id == sid))).map Sublink.toObj := by
  induction subs with
  | nil => rfl
  | cons s rest ih =>
    simp only [List.map_cons, List.filter_cons, pyGet_toObj_id]
    cases hs : s.id == sid with
    | true => simpa [hs] using ih
    | false => simpa [hs] using ih

theorem filter_length_ne_of_match (subs : List Sublink) (sid : String)
    (h : ∃ s ∈ subs, s.id = sid) :
    (subs.filter (fun s => !(s.id == sid))).length ≠ subs.length := by
  induction subs with
  | nil => obtain ⟨s, hm, _⟩ := h; exact absurd hm (List.not_mem_nil _)
  | cons t rest ih =>
    simp only [List.filter_cons]
    cases ht : t.id == sid with
    | true =>
      simp only [ht, Bool.not_true, Bool.false_eq_true, if_false, List.length_cons]
      have hle := List.length_filter_le (fun s => !(s.id == sid)) rest
      omega
    | false =>
      simp only [ht, Bool.not_false, if_true, List.length_cons]
      have hex : ∃ s ∈ rest, s.id = sid := by
        obtain ⟨s, hm, hs⟩ := h
        rcases List.mem_cons.mp hm with h1 | h1
        · exact absurd (h1 ▸ hs) (beq_eq_false_iff_ne.mp ht)
        · exact ⟨s, h1, hs⟩
      have hne := ih hex
      omega

/-- C9: deleting a sublink from a link whose stored sublinks are
well-formed removes exactly the entries whose id equals the given id —
404 when none matches, a `SET` of the filtered list when some remain, and
a `REMOVE` of the whole `sublinks` attribute when the filtered list is
empty, so the attribute is absent (not an empty list) on the next read
while all other attributes are unchanged. -/
theorem c9_delete_sublink_semantics (link_id sid : String) (st : Store) (item : Obj)
    (subs : List Sublink)
    (hitem : getItemByKey st.links "link_id" link_id = some item)
    (hsubs : pyGet item "sublinks" = JVal.arr (subs.map (fun s => JVal.obj s.toObj))) :
    ((∀ s ∈ subs, s.id ≠ sid) →
      delete_sublink link_id sid st = Except.error ⟨404, "Sublink not found"⟩)
    ∧ ((∃ s ∈ subs, s.id = sid) →
       ∀ s2 rest2, subs.filter (fun s => !(s.id == sid)) = s2 :: rest2 →
        delete_sublink link_id sid st
          = Except.ok
            (response 200 (some (JVal.obj [("link", JVal.obj (serialize
              (setAttr item "sublinks"
                (JVal.arr (((s2 :: rest2).map Sublink.toObj).map JVal.obj)))))])),
             { st with links := st.links.map (fun o => if keyIs o "link_id" link_id
                 then setAttr item "sublinks"
                   (JVal.arr (((s2 :: rest2).map Sublink.toObj).map JVal.obj)) else o) }))
    ∧ ((∃ s ∈ subs, s.id = sid) → subs.filter (fun s => !(s.id == sid)) = [] →
        (delete_sublink link_id sid st
          = Except.ok
            (response 200 (some (JVal.obj [("link", JVal.obj (serialize
              (removeAttr item "sublinks")))])),
             { st with links := st.links.map (fun o => if keyIs o "link_id" link_id
                 then removeAttr item "sublinks" else o) }))
        ∧ (removeAttr item "sublinks").lookup "sublinks" = none
        ∧ ∀ k, k ≠ "sublinks" → (removeAttr item "sublinks").lookup k = item.lookup k) := by
  have hext := extract_sublinks_wf item subs hsubs
  have hfil := filter_toObj subs sid
  refine ⟨?_, ?_, ?_⟩
  · intro hno
    have hall : subs.filter (fun s => !(s.id == sid)) = subs :=
      List.filter_eq_self.mpr (fun s hm => by simp [beq_eq_false_iff_ne.mpr (hno s hm)])
    simp only [delete_sublink, fetch_link_item, hitem, except_ok_bind, hext, hfil, hall]
    rw [if_pos trivial]
  · intro hex s2 rest2 hcons
    have hlen : ((subs.filter (fun s => !(s.id == sid))).map Sublink.toObj).length
        ≠ (subs.map Sublink.toObj).length := by
      simpa [List.length_map] using filter_length_ne_of_match subs sid hex
    simp only [delete_sublink, fetch_link_item, hitem, except_ok_bind, hext, hfil]
    rw [if_neg hlen]
    simp only [hcons, List.map_cons, List.isEmpty_cons, Bool.false_eq_true, if_false,
      updateIfExists, hitem]
    rfl
  · intro hex hnil
    have hlen : ((subs.filter (fun s => !(s.id == sid))).map Sublink.toObj).length
        ≠ (subs.map Sublink.toObj).length := by
      simpa [List.length_map] using filter_length_ne_of_match subs sid hex
    refine ⟨?_, ?_, fun k hk => by rw [lookup_removeAttr, if_neg hk]⟩
    · simp only [delete_sublink, fetch_link_item, hitem, except_ok_bind, hext, hfil]
      rw [if_neg hlen]
      simp only [hnil, List.map_nil, List.isEmpty_nil, if_true, updateIfExists, hitem]
      rfl
    · rw [lookup_removeAttr]
      simp

def sampleLinkS : Obj :=
  sampleLink ++ [("sublinks", JVal.arr [JVal.obj (mkSublinkObj "a" "n" "http://x" none)])]

/-- C9 witness: deleting the only sublink removes the attribute; deleting
an unknown id fails 404. -/
theorem c9_delete_sublink_semantics_witness :
    delete_sublink "lnk-1" "a" ⟨[sampleLinkS], [sampleCat]⟩
      = Except.ok
        (response 200 (some (JVal.obj [("link", JVal.obj (serialize
          (removeAttr sampleLinkS "sublinks")))])),
         ⟨[removeAttr sampleLinkS "sublinks"], [sampleCat]⟩)
    ∧ (removeAttr sampleLinkS "sublinks").lookup "sublinks" = none
    ∧ delete_sublink "lnk-1" "zz" ⟨[sampleLinkS], [sampleCat]⟩
        = Except.error ⟨404, "Sublink not found"⟩ :=
  ⟨((c9_delete_sublink_semantics "lnk-1" "a" ⟨[sampleLinkS], [sampleCat]⟩ sampleLinkS
      [⟨"a", "n", "http://x", none⟩] rfl rfl).2.2
      ⟨⟨"a", "n", "http://x", none⟩, List.Mem.head _, rfl⟩ rfl).1,
   ((c9_delete_sublink_semantics "lnk-1" "a" ⟨[sampleLinkS], [sampleCat]⟩ sampleLinkS
      [⟨"a", "n", "http://x", none⟩] rfl rfl).2.2
      ⟨⟨"a", "n", "http://x", none⟩, List.Mem.head _, rfl⟩ rfl).2.1,
   (c9_delete_sublink_semantics "lnk-1" "zz" ⟨[sampleLinkS], [sampleCat]⟩ sampleLinkS
      [⟨"a", "n", "http://x", none⟩] rfl rfl).1
      (by intro s hm; rw [List.mem_singleton] at hm; subst hm; decide)⟩

/-! ### C10 -/

theorem lookup_setAttr (o : Obj) (k : String) (v : JVal) (k' : String) :
    (setAttr o k v).lookup k' = if k' = k then some v else o.lookup k' := by
  induction o with
  | nil =>
    simp only [setAttr, List.lookup]
    by_cases hk : k' = k
    · simp [hk]
    · simp [beq_eq_false_iff_ne.mpr hk, hk]
  | cons p rest ih =>
    obtain ⟨a, w⟩ := p
    simp only [setAttr]
    by_cases hak : a = k
    · subst hak
      rw [if_pos rfl]
      simp only [List.lookup_cons]
      by_cases hk : k' = a
      · simp [hk]
      · simp [beq_eq_false_iff_ne.mpr hk, hk]
    · rw [if_neg hak]
      simp only [List.lookup_cons]
      by_cases hka : k' = a
      · subst hka
        rw [if_neg hak]
        simp
      · simp only [beq_eq_false_iff_ne.mpr hka]
        exact ih

theorem lookup_foldl_removeAttr (removes : List String) :
    ∀ (o : Obj) (k : String),
    (removes.foldl removeAttr o).lookup k = if k ∈ removes then none else o.lookup k := by
  induction removes with
  | nil => intro o k; simp
  | cons r rest ih =>
    intro o k
    simp only [List.foldl_cons, ih, lookup_removeAttr]
    by_cases hk : k ∈ r :: rest
    · rw [if_pos hk]
      rcases List.mem_cons.mp hk with h1 | h1
      · by_cases h2 : k ∈ rest
        · rw [if_pos h2]
        · rw [if_neg h2, if_pos h1]
      · rw [if_pos h1]
    · rw [if_neg hk, if_neg (fun h2 => hk (List.mem_cons_of_mem _ h2)),
        if_neg (fun h1 : k = r => hk (by rw [h1]; exact List.mem_cons_self _ _))]

theorem lookup_foldl_setAttr (sets : List (String × JVal)) :
    ∀ (o : Obj) (k : String),
    ((sets.foldl (fun acc p => setAttr acc p.1 p.2) o).lookup k)
      = (sets.reverse.lookup k).or (o.lookup k) := by
  induction sets with
  | nil => intro o k; simp
  | cons p ps ih =>
    obtain ⟨a, v⟩ := p
    intro o k
    simp only [List.foldl_cons, ih, lookup_setAttr, List.reverse_cons, List.lookup_append]
    rw [Option.or_assoc]
    congr 1
    by_cases hk : k = a
    · rw [if_pos hk]
      simp only [List.lookup_cons, beq_iff_eq.mpr hk]
      rfl
    · rw [if_neg hk]
      simp only [List.lookup_cons, beq_eq_false_iff_ne.mpr hk]
      rfl

theorem lookup_applyUpdate (o : Obj) (sets : List (String × JVal)) (removes : List String)
    (k : String) :
    (applyUpdate o sets removes).lookup k
      = if k ∈ removes then none else (sets.reverse.lookup k).or (o.lookup k) := by
  rw [applyUpdate, lookup_foldl_removeAttr, lookup_foldl_setAttr]

theorem lookup_eq_none_of_keys (l : List (String × JVal)) (k : String)
    (h : ∀ p ∈ l, ¬ p.1 = k) : l.lookup k = none := by
  induction l with
  | nil => rfl
  | cons p rest ih =>
    obtain ⟨a, v⟩ := p
    have ha : ¬ a = k := h (a, v) (List.mem_cons_self _ _)
    simp only [List.lookup_cons,
      beq_eq_false_iff_ne.mpr (fun he : k = a => ha he.symm)]
    exact ih (fun p2 hm => h p2 (List.mem_cons_of_mem _ hm))

theorem sanitize_ne_nil (v : JVal) (field : String) (ids : List String)
    (h : sanitize_category_ids v field = Except.ok ids) : ids ≠ [] := by
  cases v with
  | null => cases h
  | bool b => cases h
  | num n => cases h
  | obj o => cases h
  | arr raw =>
    simp only [sanitize_category_ids, sanitize_from] at h
    obtain ⟨san, hsan, h⟩ := except_bind_ok _ _ _ h
    by_cases hs : san = []
    · rw [if_pos hs] at h; cases h
    · rw [if_neg hs] at h; cases h; exact hs
  | str s =>
    simp only [sanitize_category_ids, sanitize_from] at h
    obtain ⟨san, hsan, h⟩ := except_bind_ok _ _ _ h
    by_cases hs : san = []
    · rw [if_pos hs] at h; cases h
    · rw [if_neg hs] at h; cases h; exact hs

theorem extract_category_ids_ne_nil (body : Obj) (cats : List Obj) (ids : List String)
    (h : extract_category_ids_from_body body cats = Except.ok ids) : ids ≠ [] := by
  simp only [extract_category_ids_from_body] at h
  by_cases h1 : hasKey body "categoryIds" = true
  · rw [if_pos h1] at h
    obtain ⟨ids2, hsan, h⟩ := except_bind_ok _ _ _ h
    obtain ⟨u2, hassert, h⟩ := except_bind_ok _ _ _ h
    cases h
    exact sanitize_ne_nil _ _ _ hsan
  · rw [if_neg h1] at h
    by_cases h2 : hasKey body "categoryId" = true
    · rw [if_pos h2] at h
      obtain ⟨ids2, hsan, h⟩ := except_bind_ok _ _ _ h
      obtain ⟨u2, hassert, h⟩ := except_bind_ok _ _ _ h
      cases h
      exact sanitize_ne_nil _ _ _ hsan
    · rw [if_neg h2] at h
      cases h

/-- The fixed leading attributes of the item `_create_link` writes. -/
def createdBase (link_id nm u : String) (ids : List String) : Obj :=
  [("link_id", JVal.str link_id), ("name", JVal.str nm), ("url", JVal.str u),
   ("category_id", JVal.str (ids.headD "")),
   ("category_ids", JVal.arr (ids.map JVal.str))]

theorem lookup_created_base (link_id nm u : String) (ids : List String) (t1 t2 : Obj) :
    ((createdBase link_id nm u ids ++ t1) ++ t2).lookup "category_ids"
        = some (JVal.arr (ids.map JVal.str))
    ∧ ((createdBase link_id nm u ids ++ t1) ++ t2).lookup "category_id"
        = some (JVal.str (ids.headD "")) := by
  constructor
  · rw [List.lookup_append, List.lookup_append]
    rfl
  · rw [List.lookup_append, List.lookup_append]
    rfl

theorem create_link_category_invariant (body : Obj) (link_id : String)
    (gen_sub : Nat → String) (st : Store) (resp : Resp) (st' : Store)
    (h : create_link body link_id gen_sub st = Except.ok (resp, st')) :
    ∃ item ids, ids ≠ []
      ∧ st'.links = st.links ++ [item]
      ∧ item.lookup "category_ids" = some (JVal.arr (ids.map JVal.str))
      ∧ item.lookup "category_id" = some (JVal.str (ids.headD "")) := by
  simp only [create_link] at h
  obtain ⟨nm, hname, h⟩ := except_bind_ok _ _ _ h
  obtain ⟨u, hurl, h⟩ := except_bind_ok _ _ _ h
  obtain ⟨ids, hext, h⟩ := except_bind_ok _ _ _ h
  obtain ⟨desc, hdesc, h⟩ := except_bind_ok _ _ _ h
  have hne := extract_category_ids_ne_nil _ _ _ hext
  have match_inv : ∀ it : Obj,
      (match putIfAbsent st.links "link_id" link_id it with
       | none => (Except.error ⟨409, "Link already exists"⟩ : Except HttpError (Resp × Store))
       | some links2 =>
         Except.ok (response 201 (some (JVal.obj [("link", JVal.obj (serialize it))])),
           { st with links := links2 })) = Except.ok (resp, st') →
      ∃ links2, putIfAbsent st.links "link_id" link_id it = some links2
        ∧ ({ st with links := links2 } : Store) = st' := by
    intro it hmatch
    cases hp : putIfAbsent st.links "link_id" link_id it with
    | none => rw [hp] at hmatch; cases hmatch
    | some l2 =>
      rw [hp] at hmatch
      exact ⟨l2, rfl, congrArg Prod.snd (Except.ok.inj hmatch)⟩
  have step : ∀ (t1 t2 : Obj) (links2 : List Obj),
      putIfAbsent st.links "link_id" link_id
        ((createdBase link_id nm u ids ++ t1) ++ t2) = some links2 →
      ({ st with links := links2 } : Store) = st' →
      ∃ item ids2, ids2 ≠ []
        ∧ st'.links = st.links ++ [item]
        ∧ item.lookup "category_ids" = some (JVal.arr (ids2.map JVal.str))
        ∧ item.lookup "category_id" = some (JVal.str (ids2.headD "")) := by
    intro t1 t2 links2 hp hst
    simp only [putIfAbsent] at hp
    by_cases hex : (getItemByKey st.links "link_id" link_id).isSome = true
    · rw [if_pos hex] at hp; cases hp
    · rw [if_neg hex] at hp
      refine ⟨(createdBase link_id nm u ids ++ t1) ++ t2, ids, hne, ?_,
        (lookup_created_base link_id nm u ids t1 t2).1,
        (lookup_created_base link_id nm u ids t1 t2).2⟩
      subst hst
      exact (Option.some.inj hp).symm
  split at h
  · obtain ⟨links2, hp, hst⟩ := match_inv _ h
    exact step _ _ links2 hp hst
  case _ raw_sublinks hnn =>
    obtain ⟨validated, hval, h⟩ := except_bind_ok _ _ _ h
    obtain ⟨links2, hp, hst⟩ := match_inv _ h
    exact step _ _ links2 hp hst

theorem name_sets_keys (event_body : Obj) (ns : List (String × JVal))
    (h : name_sets_of event_body = Except.ok ns) : ∀ p ∈ ns, p.1 = "name" := by
  simp only [name_sets_of] at h
  split at h
  · obtain ⟨nm, hnm, h⟩ := except_bind_ok _ _ _ h
    cases h
    intro p hp
    rw [List.mem_singleton.mp hp]
  · cases h
    intro p hp
    exact absurd hp (List.not_mem_nil _)

theorem url_sets_keys (event_body : Obj) (us : List (String × JVal))
    (h : url_sets_of event_body = Except.ok us) : ∀ p ∈ us, p.1 = "url" := by
  simp only [url_sets_of] at h
  split at h
  · obtain ⟨u, hu, h⟩ := except_bind_ok _ _ _ h
    cases h
    intro p hp
    rw [List.mem_singleton.mp hp]
  · cases h
    intro p hp
    exact absurd hp (List.not_mem_nil _)

theorem category_ids_to_set_some (event_body : Obj) (o : Option (List String))
    (hkey : hasKey event_body "categoryIds" = true ∨ hasKey event_body "categoryId" = true)
    (h : category_ids_to_set_of event_body = Except.ok o) :
    ∃ ids, o = some ids ∧ ids ≠ [] := by
  simp only [category_ids_to_set_of] at h
  by_cases h1 : hasKey event_body "categoryIds" = true
  · rw [if_pos h1] at h
    obtain ⟨ids, hsan, h⟩ := except_bind_ok _ _ _ h
    cases h
    exact ⟨ids, rfl, sanitize_ne_nil _ _ _ hsan⟩
  · rw [if_neg h1] at h
    rcases hkey with hk | hk
    · exact absurd hk h1
    · rw [if_pos hk] at h
      obtain ⟨ids, hsan, h⟩ := except_bind_ok _ _ _ h
      cases h
      exact ⟨ids, rfl, sanitize_ne_nil _ _ _ hsan⟩

theorem category_sets_some (categories : List Obj) (ids : List String)
    (cs : List (String × JVal))
    (h : category_sets_of categories (some ids) = Except.ok cs) :
    cs = [("category_ids", JVal.arr (ids.map JVal.str)),
          ("category_id", JVal.str (ids.headD ""))] := by
  simp only [category_sets_of] at h
  obtain ⟨u, hassert, h⟩ := except_bind_ok _ _ _ h
  cases h
  rfl

theorem description_parts_keys (event_body : Obj) (ds : List (String × JVal))
    (dr : List String) (h : description_parts_of event_body = Except.ok (ds, dr)) :
    (∀ p ∈ ds, p.1 = "description") ∧ (∀ r ∈ dr, r = "description") := by
  simp only [description_parts_of] at h
  split at h
  · obtain ⟨d, hd, h⟩ := except_bind_ok _ _ _ h
    split at h
    · cases h
      exact ⟨fun p hp => absurd hp (List.not_mem_nil _),
        fun r hr => List.mem_singleton.mp hr⟩
    · cases h
      exact ⟨fun p hp => by rw [List.mem_singleton.mp hp],
        fun r hr => absurd hr (List.not_mem_nil _)⟩
  · cases h
    exact ⟨fun p hp => absurd hp (List.not_mem_nil _),
      fun r hr => absurd hr (List.not_mem_nil _)⟩

theorem sublink_parts_keys (event_body : Obj) (gen_sub : Nat → String)
    (ss : List (String × JVal)) (sr : List String)
    (h : sublink_parts_of event_body gen_sub = Except.ok (ss, sr)) :
    (∀ p ∈ ss, p.1 = "sublinks") ∧ (∀ r ∈ sr, r = "sublinks") := by
  simp only [sublink_parts_of] at h
  split at h
  · cases h
    exact ⟨fun p hp => absurd hp (List.not_mem_nil _),
      fun r hr => List.mem_singleton.mp hr⟩
  · obtain ⟨validated, hv, h⟩ := except_bind_ok _ _ _ h
    cases h
    exact ⟨fun p hp => by rw [List.mem_singleton.mp hp],
      fun r hr => absurd hr (List.not_mem_nil _)⟩
  · cases h
    exact ⟨fun p hp => absurd hp (List.not_mem_nil _),
      fun r hr => absurd hr (List.not_mem_nil _)⟩

theorem build_link_update_category (event_body : Obj) (cats : List Obj)
    (gen_sub : Nat → String) (sets : List (String × JVal)) (removes : List String)
    (hkey : hasKey event_body "categoryIds" = true ∨ hasKey event_body "categoryId" = true)
    (h : build_link_update event_body cats gen_sub = Except.ok (sets, removes)) :
    ∃ ids, ids ≠ []
      ∧ sets.reverse.lookup "category_ids" = some (JVal.arr (ids.map JVal.str))
      ∧ sets.reverse.lookup "category_id" = some (JVal.str (ids.headD ""))
      ∧ "category_ids" ∉ removes ∧ "category_id" ∉ removes := by
  simp only [build_link_update] at h
  obtain ⟨ns, hns, h⟩ := except_bind_ok _ _ _ h
  obtain ⟨us, hus, h⟩ := except_bind_ok _ _ _ h
  obtain ⟨cido, hcido, h⟩ := except_bind_ok _ _ _ h
  obtain ⟨cs, hcs, h⟩ := except_bind_ok _ _ _ h
  obtain ⟨dp, hdp, h⟩ := except_bind_ok _ _ _ h
  obtain ⟨ds, dr⟩ := dp
  obtain ⟨sp, hsp, h⟩ := except_bind_ok _ _ _ h
  obtain ⟨ss, sr⟩ := sp
  have h2 := Except.ok.inj h
  have hsets : sets = ns ++ us ++ cs ++ ds ++ ss := (congrArg Prod.fst h2).symm
  have hrem : removes = dr ++ sr := (congrArg Prod.snd h2).symm
  subst hsets
  subst hrem
  obtain ⟨ids, hcidsome, hne⟩ := category_ids_to_set_some _ _ hkey hcido
  subst hcidsome
  have hcseq := category_sets_some _ _ _ hcs
  subst hcseq
  have hnsk := name_sets_keys _ _ hns
  have husk := url_sets_keys _ _ hus
  have hdpk := description_parts_keys _ _ _ hdp
  have hspk := sublink_parts_keys _ _ _ _ hsp
  have hssn : ∀ k2 : String, k2 ≠ "sublinks" → ss.reverse.lookup k2 = none :=
    fun k2 hk2 => lookup_eq_none_of_keys _ _
      (fun p hp he => hk2 (he ▸ (hspk.1 p (List.mem_reverse.mp hp)) ▸ rfl))
  have hdsn : ∀ k2 : String, k2 ≠ "description" → ds.reverse.lookup k2 = none :=
    fun k2 hk2 => lookup_eq_none_of_keys _ _
      (fun p hp he => hk2 (he ▸ (hdpk.1 p (List.mem_reverse.mp hp)) ▸ rfl))
  have hcs1 : ([("category_ids", JVal.arr (ids.map JVal.str)),
      ("category_id", JVal.str (ids.headD ""))] : List (String × JVal)).reverse.lookup
      "category_ids" = some (JVal.arr (ids.map JVal.str)) := rfl
  have hcs2 : ([("category_ids", JVal.arr (ids.map JVal.str)),
      ("category_id", JVal.str (ids.headD ""))] : List (String × JVal)).reverse.lookup
      "category_id" = some (JVal.str (ids.headD "")) := rfl
  refine ⟨ids, hne, ?_, ?_, ?_, ?_⟩
  · simp only [List.reverse_append, List.lookup_append, List.append_assoc]
    rw [hssn "category_ids" (by decide), hdsn "category_ids" (by decide)]
    simp only [List.lookup_append] at hcs1
    rw [hcs1]
    rfl
  · simp only [List.reverse_append, List.lookup_append, List.append_assoc]
    rw [hssn "category_id" (by decide), hdsn "category_id" (by decide)]
    simp only [List.lookup_append] at hcs2
    rw [hcs2]
    rfl
  · intro hmem
    rcases List.mem_append.mp hmem with hm | hm
    · exact absurd (hdpk.2 _ hm) (by decide)
    · exact absurd (hspk.2 _ hm) (by decide)
  · intro hmem
    rcases List.mem_append.mp hmem with hm | hm
    · exact absurd (hdpk.2 _ hm) (by decide)
    · exact absurd (hspk.2 _ hm) (by decide)

theorem update_link_category_invariant (link_id : String) (event_body : Obj)
    (gen_sub : Nat → String) (st : Store) (resp : Resp) (st' : Store)
    (hkey : hasKey event_body "categoryIds" = true ∨ hasKey event_body "categoryId" = true)
    (h : update_link link_id event_body gen_sub st = Except.ok (resp, st')) :
    ∃ ids updated, ids ≠ []
      ∧ updated.lookup "category_ids" = some (JVal.arr (ids.map JVal.str))
      ∧ updated.lookup "category_id" = some (JVal.str (ids.headD ""))
      ∧ st'.links = st.links.map (fun o => if keyIs o "link_id" link_id then updated else o) := by
  simp only [update_link] at h
  by_cases hbe : event_body.isEmpty = true
  · rw [if_pos hbe] at h; cases h
  · rw [if_neg hbe] at h
    obtain ⟨pr0, hbuild, h⟩ := except_bind_ok _ _ _ h
    obtain ⟨sets, removes⟩ := pr0
    by_cases hse : sets.isEmpty = true ∧ removes.isEmpty = true
    · rw [if_pos hse] at h; cases h
    · rw [if_neg hse] at h
      cases hui : updateIfExists st.links "link_id" link_id sets removes with
      | none => rw [hui] at h; cases h
      | some pr =>
        obtain ⟨attributes, links2⟩ := pr
        rw [hui] at h
        have h2 := Except.ok.inj h
        have hst : st' = { st with links := links2 } := (congrArg Prod.snd h2).symm
        simp only [updateIfExists] at hui
        cases hget : getItemByKey st.links "link_id" link_id with
        | none => rw [hget] at hui; cases hui
        | some item =>
          rw [hget] at hui
          have h3 := Option.some.inj hui
          have hlinks : links2 = st.links.map (fun o =>
              if keyIs o "link_id" link_id then applyUpdate item sets removes else o) :=
            (congrArg Prod.snd h3).symm
          obtain ⟨ids, hne, hl1, hl2, hr1, hr2⟩ :=
            build_link_update_category _ _ _ _ _ hkey hbuild
          refine ⟨ids, applyUpdate item sets removes, hne, ?_, ?_, ?_⟩
          · rw [lookup_applyUpdate, if_neg hr1, hl1]
            rfl
          · rw [lookup_applyUpdate, if_neg hr2, hl2]
            rfl
          · rw [hst, hlinks]

/-- C10: every successful link create appends an item whose stored
`category_id` equals the head of its non-empty stored `category_ids`
list, and every successful link update whose body carries `categoryIds`
(or the legacy `categoryId`) rewrites the stored record so that
`category_id` again equals the head of the non-empty `category_ids`. -/
theorem c10_category_id_head_invariant :
    (∀ (body : Obj) (link_id : String) (gen_sub : Nat → String) (st : Store)
        (resp : Resp) (st' : Store),
      create_link body link_id gen_sub st = Except.ok (resp, st') →
      ∃ item ids, ids ≠ []
        ∧ st'.links = st.links ++ [item]
        ∧ item.lookup "category_ids" = some (JVal.arr (ids.map JVal.str))
        ∧ item.lookup "category_id" = some (JVal.str (ids.headD "")))
    ∧ (∀ (link_id : String) (body : Obj) (gen_sub : Nat → String) (st : Store)
        (resp : Resp) (st' : Store),
      hasKey body "categoryIds" = true ∨ hasKey body "categoryId" = true →
      update_link link_id body gen_sub st = Except.ok (resp, st') →
      ∃ ids updated, ids ≠ []
        ∧ updated.lookup "category_ids" = some (JVal.arr (ids.map JVal.str))
        ∧ updated.lookup "category_id" = some (JVal.str (ids.headD ""))
        ∧ st'.links = st.links.map (fun o =>
            if keyIs o "link_id" link_id then updated else o)) :=
  ⟨fun body link_id gen_sub st resp st' h =>
     create_link_category_invariant body link_id gen_sub st resp st' h,
   fun link_id body gen_sub st resp st' hkey h =>
     update_link_category_invariant link_id body gen_sub st resp st' hkey h⟩

/-- C10 witness: the invariant at a concrete create and a concrete
update. -/
theorem c10_category_id_head_invariant_witness :
    (∃ item ids, ids ≠ []
      ∧ ([created_link_item "lnk-9" "Ex" "https://x.org" ["cat-1"]] : List Obj)
          = ([] : List Obj) ++ [item]
      ∧ item.lookup "category_ids" = some (JVal.arr (ids.map JVal.str))
      ∧ item.lookup "category_id" = some (JVal.str (ids.headD "")))
    ∧ (∃ ids updated, ids ≠ []
      ∧ updated.lookup "category_ids" = some (JVal.arr (ids.map JVal.str))
      ∧ updated.lookup "category_id" = some (JVal.str (ids.headD ""))
      ∧ (setAttr (setAttr sampleLink "category_ids" (JVal.arr [JVal.str "cat-2"]))
           "category_id" (JVal.str "cat-2") :: ([] : List Obj))
          = [sampleLink].map (fun o => if keyIs o "link_id" "lnk-1" then updated else o)) :=
  ⟨c10_category_id_head_invariant.1
     [("name", JVal.str "Ex"), ("url", JVal.str "https://x.org"),
      ("categoryIds", JVal.arr [JVal.str "cat-1"])]
     "lnk-9" genDefault.sub ⟨[], [sampleCat]⟩ _ _ rfl,
   c10_category_id_head_invariant.2 "lnk-1"
     [("categoryIds", JVal.arr [JVal.str "cat-2"])] genDefault.sub
     ⟨[sampleLink], [sampleCat2]⟩ _ _ (Or.inl rfl) rfl⟩
